import Mathlib

/-!
Verification of the ProdHub Order Ledger and Session Authority.

The definitions below are a shallow embedding of `app/transactions.py` and
`app/user.py` (together with the request schemas of `app/schemas.py` and the
connection handling of `app/database.py`).  Database tables are modelled as
fields of a `DB` record; each SQL statement issued by a handler becomes an
explicit state transformation.  A request runs inside one database
transaction: the pooled-connection context of `database.py` commits on
success and rolls back on any exception escaping the handler, which
`run_request` models by discarding the intermediate state on an error.

Machine integers of the source (stock counters, amounts) are modelled as
`Int`; prices (floats in the source) are modelled as `Int`, which is
adequate because no statement proved here depends on price arithmetic.
-/

set_option maxRecDepth 4000

namespace Prodhub

/-- `PaymentMethod = Literal["Cash", "Card", "BLIK"]` from `app/schemas.py`. -/
inductive PaymentMethod
  | Cash
  | Card
  | BLIK
deriving Repr, DecidableEq

/-- A row of the `products` table (the columns the Order Ledger touches). -/
structure Product where
  stock : Int
  price : Int
deriving Repr, DecidableEq

/-- A row of the `sales` table. -/
structure SaleRow where
  transaction_id : Nat
  product_id : Nat
  amount : Int
  price : Int
deriving Repr, DecidableEq

/-- A row of the `transactions` table. -/
structure TxRow where
  user_id : Nat
  event_id : Option Nat
  payment_method : PaymentMethod
  time : Int
deriving Repr, DecidableEq

/-- A row of the `tokens` table. -/
structure TokenRow where
  user_id : Nat
  value : String
  expires : Int
deriving Repr, DecidableEq

/-- The database state seen by the handlers.  `products` and `transactions`
are keyed by their primary key; `sales` and `tokens` are kept as row lists
because the handlers run multi-row statements over them. -/
structure DB where
  products : Nat → Option Product
  events : Nat → Bool
  transactions : Nat → Option TxRow
  sales : List SaleRow
  tokens : List TokenRow
  next_transaction_id : Nat

/-- `CreateSaleSchema` from `app/schemas.py`: `product_id`, `amount`, and an
optional explicit `price`. -/
structure CreateSaleSchema where
  product_id : Nat
  amount : Int
  price : Option Int
deriving Repr, DecidableEq

/-- `CreateTransactionSchema` from `app/schemas.py`. -/
structure CreateTransactionSchema where
  event_id : Option Nat
  payment_method : PaymentMethod
  sales : List CreateSaleSchema
deriving Repr, DecidableEq

/-- `UpdateTransaction` from `app/schemas.py`: every field optional, and in
particular `sales` defaults to `None` when omitted by the caller. -/
structure UpdateTransaction where
  event_id : Option Nat
  payment_method : Option PaymentMethod
  sales : Option (List CreateSaleSchema)
deriving Repr, DecidableEq

/-- The failures a request can end in.  The first five are the
`HTTPException`s raised by the handlers; `fault` stands for any other
exception escaping a handler (a `TypeError`, a `ProgrammingError`, an
uncaught `IntegrityError`), which the framework surfaces as an unhandled
500 fault. -/
inductive ApiErr
  | notFoundTransaction
  | notFoundProduct
  | notFoundEvent
  | conflict (product_id : Nat)
  | tokenLimit
  | fault (msg : String)
deriving Repr, DecidableEq

/-- The `detail` string of the insufficient-stock conflict raised in
`transactions.py`. -/
def conflictDetail (product_id : Nat) : String :=
  "Not enough product " ++ toString product_id

/-- Writes the new stock value of the row updated by a stock
update statement. -/
def set_product_stock (db : DB) (p : Nat) (pr : Product) (v : Int) : DB :=
  { db with products := fun q =>
      if q = p then some { pr with stock := v } else db.products q }

/-- Modelled from the spec: the database schema (not part of the
repository's source tree) enforces a non-negativity check on
`products.stock` at the storage boundary, so
`update products set stock = stock - a where product_id = p` raises an
`IntegrityError` when the new stock would be negative.  Returns the new
state and the SQL rowcount, or the integrity failure. -/
def decrement_stock (db : DB) (p : Nat) (a : Int) : Except Unit (DB × Nat) :=
  match db.products p with
  | none => .ok (db, 0)
  | some pr =>
      if pr.stock - a < 0 then .error ()
      else .ok (set_product_stock db p pr (pr.stock - a), 1)

/-- Modelled from the spec: the same stored check applies to
`update products set stock = stock + a where product_id = p` (the statement
run by delete/update when giving stock back); a missing product updates no
row, which the source never checks on this path. -/
def increment_stock (db : DB) (p : Nat) (a : Int) : Except Unit DB :=
  match db.products p with
  | none => .ok db
  | some pr =>
      if pr.stock + a < 0 then .error ()
      else .ok (set_product_stock db p pr (pr.stock + a))

/-- The `for sale in body.sales` decrement loop shared by
`create_transaction` and `update_transaction`: each line item decrements
its product's stock; a zero rowcount raises the product `NotFound`; an
`IntegrityError` is caught outside the loop and turned into a 409 conflict
naming the current loop variable's product id. -/
def sell_loop (db : DB) : List CreateSaleSchema → Except ApiErr DB
  | [] => .ok db
  | s :: rest =>
      match decrement_stock db s.product_id s.amount with
      | .error _ => .error (.conflict s.product_id)
      | .ok (db', n) =>
          if n = 0 then .error .notFoundProduct
          else sell_loop db' rest

/-- The `executemany` loop of delete/update that returns removed sales'
stock to their products.  An `IntegrityError` here is not caught by the
source, so it escapes as an unhandled fault. -/
def return_loop (db : DB) : List SaleRow → Except ApiErr DB
  | [] => .ok db
  | r :: rest =>
      match increment_stock db r.product_id r.amount with
      | .error _ => .error (.fault "IntegrityError")
      | .ok db' => return_loop db' rest

/-- `select price from products where product_id = p`, used by the sales
insert to default an unset line-item price. -/
def product_price (db : DB) (p : Nat) : Int :=
  match db.products p with
  | some pr => pr.price
  | none => 0

/-- The `insert into sales` loop shared by create and update: one row per
line item, the price defaulting to the product's current price. -/
def insert_sales (db : DB) (tid : Nat) : List CreateSaleSchema → DB
  | [] => db
  | s :: rest =>
      insert_sales
        { db with
            sales := db.sales ++
              [⟨tid, s.product_id, s.amount, s.price.getD (product_price db s.product_id)⟩] }
        tid rest

/-- `insert into transactions (user_id, event_id, payment_method) ...
returning transaction_id`.  Modelled from the spec: the referential
integrity constraint on `event_id` (schema DDL not in the repository)
raises an `IntegrityError` for a missing event, which the source maps to
the event `NotFound`.  `fk_ok` is that constraint check. -/
def fk_ok (db : DB) : Option Nat → Bool
  | none => true
  | some e => db.events e

/-- The state produced by a successful header insert: the new row under the
next serial id. -/
def header_row_insert (db : DB) (user_id : Nat) (event_id : Option Nat)
    (pm : PaymentMethod) (now : Int) : Nat × DB :=
  (db.next_transaction_id, { db with
    transactions := fun t =>
      if t = db.next_transaction_id then some ⟨user_id, event_id, pm, now⟩
      else db.transactions t,
    next_transaction_id := db.next_transaction_id + 1 })

def insert_transaction_header (db : DB) (user_id : Nat) (event_id : Option Nat)
    (pm : PaymentMethod) (now : Int) : Except ApiErr (Nat × DB) :=
  if fk_ok db event_id then .ok (header_row_insert db user_id event_id pm now)
  else .error .notFoundEvent

/-- Models the connection scope of `database.py`: the handler's statements
run in one database transaction, committed when the handler returns and
rolled back when any exception escapes it (FastAPI rethrows handler
exceptions inside the dependency's with-block, so the pooled connection
context rolls back). -/
def run_request {α : Type} (h : DB → Except ApiErr (α × DB)) (db : DB) :
    Except ApiErr α × DB :=
  match h db with
  | .ok (a, db') => (.ok a, db')
  | .error e => (.error e, db)

/-- The body of `create_transaction` in `app/transactions.py`: decrement
stock per line item, insert the header (event FK check), insert the sales
rows.  Returns the new transaction id. -/
def create_transaction_handler (db : DB) (user_id : Nat)
    (body : CreateTransactionSchema) (now : Int) : Except ApiErr (Nat × DB) :=
  match sell_loop db body.sales with
  | .error e => .error e
  | .ok db1 =>
      match insert_transaction_header db1 user_id body.event_id body.payment_method now with
      | .error e => .error e
      | .ok (tid, db2) => .ok (tid, insert_sales db2 tid body.sales)

/-- `POST /transactions/` (`create_transaction`). -/
def create_transaction (db : DB) (user_id : Nat) (body : CreateTransactionSchema)
    (now : Int) : Except ApiErr Nat × DB :=
  run_request (fun d => create_transaction_handler d user_id body now) db

/-- The rows `delete from sales where transaction_id = %s returning ...`
hands back. -/
def tx_sales (db : DB) (transaction_id : Nat) : List SaleRow :=
  db.sales.filter (fun r => r.transaction_id == transaction_id)

/-- The state after that delete statement removed the transaction's sales
rows. -/
def without_tx_sales (db : DB) (transaction_id : Nat) : DB :=
  { db with sales := db.sales.filter (fun r => r.transaction_id != transaction_id) }

/-- `delete from transactions where transaction_id = %s`. -/
def drop_tx_header (db : DB) (transaction_id : Nat) : DB :=
  { db with transactions := fun t =>
      if t = transaction_id then none else db.transactions t }

/-- The body of `delete_transaction`: delete the transaction's sales rows
(returning them); a zero rowcount raises the transaction `NotFound`;
unless `return_products` is false the deleted amounts are added back to
their products; finally the header row is deleted. -/
def delete_transaction_handler (db : DB) (transaction_id : Nat)
    (return_products : Bool) : Except ApiErr (Unit × DB) :=
  if (tx_sales db transaction_id).length = 0 then .error .notFoundTransaction
  else
    match (if return_products
        then return_loop (without_tx_sales db transaction_id) (tx_sales db transaction_id)
        else .ok (without_tx_sales db transaction_id) : Except ApiErr DB) with
    | .error e => .error e
    | .ok db2 => .ok ((), drop_tx_header db2 transaction_id)

/-- `DELETE /transactions/{transaction_id}` (`delete_transaction`). -/
def delete_transaction (db : DB) (transaction_id : Nat) (return_products : Bool) :
    Except ApiErr Unit × DB :=
  run_request (fun d => delete_transaction_handler d transaction_id return_products) db

/-- The header patch of `update_transaction`:
`update transactions set event_id = coalesce(%s, event_id),
payment_method = coalesce(%s, payment_method) where transaction_id = %s`,
given the existing row. -/
def update_header (db : DB) (transaction_id : Nat) (row : TxRow)
    (body : UpdateTransaction) : DB :=
  { db with transactions := fun t =>
      if t = transaction_id then
        some { row with
          event_id := match body.event_id with
            | some e => some e
            | none => row.event_id,
          payment_method := body.payment_method.getD row.payment_method }
      else db.transactions t }

/-- The body of `update_transaction`: patch the header with
`coalesce`-semantics (missing transaction gives a zero rowcount and the
transaction `NotFound`; a bad event FK raises the event `NotFound`), delete
all existing sales rows, return their stock unless `force`, then run the
create algorithm (`sell_loop` + `insert_sales`) on the new line items.
Iterating `body.sales` when the request omitted the field (`None`) raises a
Python `TypeError`, an unhandled fault. -/
def update_transaction_handler (db : DB) (transaction_id : Nat)
    (body : UpdateTransaction) (force : Bool) : Except ApiErr (Nat × DB) :=
  match db.transactions transaction_id with
  | none => .error .notFoundTransaction
  | some row =>
      if fk_ok db body.event_id then
        let db1 := update_header db transaction_id row body
        match (if force then .ok (without_tx_sales db1 transaction_id)
            else return_loop (without_tx_sales db1 transaction_id)
              (tx_sales db1 transaction_id) : Except ApiErr DB) with
        | .error e => .error e
        | .ok db3 =>
            match body.sales with
            | none => .error (.fault "TypeError")
            | some ss =>
                match sell_loop db3 ss with
                | .error e => .error e
                | .ok db4 => .ok (transaction_id, insert_sales db4 transaction_id ss)
      else .error .notFoundEvent

/-- `PATCH /transactions/{transaction_id}` (`update_transaction`). -/
def update_transaction (db : DB) (transaction_id : Nat) (body : UpdateTransaction)
    (force : Bool) : Except ApiErr Nat × DB :=
  run_request (fun d => update_transaction_handler d transaction_id body force) db

/-- Outcome of one pass through `login_user`'s `while True` body:
`brk` carries the fetched token on a `break`, `cont` stands for a
`continue` reaching the top of the loop, `err` for an exception leaving
the loop. -/
inductive LoopStep
  | brk (t : TokenRow) (db : DB)
  | cont (db : DB)
  | err (e : ApiErr)

/-- One iteration of `login_user`'s token-insert loop, following Python
try/except/finally semantics.  The insert's uniqueness constraint on
`tokens.value` is modelled from the spec (opaque unique credential;
schema DDL not in the repository).  On a `UniqueViolation` the except
clause requests a `continue`, but the `finally` block runs first and its
`cur.fetchone()` raises a `ProgrammingError` (the failed insert produced
no result), which by Python's rules discards the pending `continue` and
propagates; the `break` after it is never reached.  On a successful insert
the `finally` fetches the returned row and `break`s. -/
def login_iteration (db : DB) (user_id : Nat) (expires : Int) (value : String) :
    LoopStep :=
  if db.tokens.any (fun t => t.value == value) then
    .err (.fault "ProgrammingError")
  else
    let t : TokenRow := ⟨user_id, value, expires⟩
    .brk t { db with tokens := t :: db.tokens }

/-- The `while True` driver: draws the next generated token value from the
stream `values` and reacts to the iteration's control outcome; a `cont`
outcome would retry with the next value. -/
def login_loop (db : DB) (user_id : Nat) (expires : Int) :
    List String → Except ApiErr (TokenRow × DB)
  | [] => .error (.fault "out of random values")
  | v :: vs =>
      match login_iteration db user_id expires v with
      | .brk t db' => .ok (t, db')
      | .err e => .error e
      | .cont db' => login_loop db' user_id expires vs

/-- The body of `login_user` in `app/user.py`: counts all stored tokens of
the user (`select count(*) from tokens where user_id = %s` — no expiry
filter) and rejects with 403 when the count exceeds 5; otherwise runs the
insert loop with expiry `now + 10 hours` (36000 seconds). -/
def login_user_handler (db : DB) (user_id : Nat) (now : Int)
    (values : List String) : Except ApiErr (TokenRow × DB) :=
  let cnt := (db.tokens.filter (fun t => t.user_id == user_id)).length
  if cnt > 5 then .error .tokenLimit
  else login_loop db user_id (now + 36000) values

/-- `POST /user/login` (`login_user`); `values` is the stream of values
`secrets.token_hex(32)` would generate. -/
def login_user (db : DB) (user_id : Nat) (now : Int) (values : List String) :
    Except ApiErr TokenRow × DB :=
  run_request (fun d => login_user_handler d user_id now values) db

/-- `TransactionQuery` from `app/schemas.py` (the list endpoint's filter
parameters). -/
structure TransactionQuery where
  start : Option Int
  finish : Option Int
  user_id : Option Nat
  event_id : Option Nat
  payment_method : Option PaymentMethod
  order_by : Option String
deriving Repr, DecidableEq

/-- The SQL fragment list built by `get_all_transactions` in
`app/transactions.py`: one `where ...` fragment is appended per supplied
filter, and an `order by` fragment per the `order_by` match. -/
def get_all_transactions_query (body : TransactionQuery) : List String :=
  let query := ["select transaction_id, \"user\", event, time, payment_method from get_all_transactions"]
  let query := if body.start.isSome then query ++ ["where time > %s"] else query
  let query := if body.finish.isSome then query ++ ["where time < %s"] else query
  let query := if body.user_id.isSome then query ++ ["where user_id = %s"] else query
  let query := if body.event_id.isSome then query ++ ["where event_id = %s"] else query
  let query := if body.payment_method.isSome then query ++ ["where payment_method = %s"] else query
  match body.order_by with
  | some o =>
      if o = "date" then query ++ ["order by date"]
      else if o = "sum" then query ++ ["order by sum"]
      else query
  | none => query

/-- Whether a fragment is a `where`-clause (its first five characters are
the keyword `where`). -/
def is_where_clause (s : String) : Bool :=
  s.data.take 5 == "where".data

/-- Number of `where`-clauses among the joined SQL fragments. -/
def where_clause_count (parts : List String) : Nat :=
  (parts.filter (fun s => is_where_clause s)).length

/-- Modelled from the spec: the Relational Store is a standard SQL engine,
so a select statement admits at most one `where` clause; a fragment list
containing two of them is rejected with a syntax error instead of being
executed as a conjunctive filter. -/
def sql_accepts (parts : List String) : Bool :=
  where_clause_count parts ≤ 1

/-- Current stock of a product (0 for a missing product id). -/
def stockOf (db : DB) (p : Nat) : Int :=
  match db.products p with
  | some pr => pr.stock
  | none => 0

/-- Whether a product id exists in the products table. -/
def product_exists (db : DB) (p : Nat) : Bool :=
  (db.products p).isSome

/-- Total amount recorded against product `q` by a list of sales rows. -/
def rowsAmount (rows : List SaleRow) (q : Nat) : Int :=
  rows.foldr (fun r acc => if r.product_id = q then r.amount + acc else acc) 0

/-- Total amount requested against product `q` by a list of line items. -/
def reqAmount (ss : List CreateSaleSchema) (q : Nat) : Int :=
  ss.foldr (fun s acc => if s.product_id = q then s.amount + acc else acc) 0

/-- The ledger-wide consistency predicate used for the stock invariant:
relative to the per-product initial stocks `init`, every stock is
non-negative, stock plus the recorded sales of the product never exceeds
its initial stock, and every stored sales row carries a non-negative
amount against an existing product. -/
def stock_ok (init : Nat → Int) (db : DB) : Prop :=
  (∀ q, 0 ≤ stockOf db q) ∧
  (∀ q, stockOf db q + rowsAmount db.sales q ≤ init q) ∧
  (∀ r ∈ db.sales, 0 ≤ r.amount ∧ product_exists db r.product_id = true)

/-- A committed Order Ledger operation: a create, update or delete request. -/
inductive LedgerOp
  | create (user_id : Nat) (body : CreateTransactionSchema) (now : Int)
  | update (transaction_id : Nat) (body : UpdateTransaction) (force : Bool)
  | delete (transaction_id : Nat) (return_products : Bool)

/-- All line-item amounts of the request are positive (the data model's
`quantity (integer > 0)`). -/
def op_amounts_ok : LedgerOp → Prop
  | .create _ body _ => ∀ s ∈ body.sales, 0 < s.amount
  | .update _ body _ => ∀ ss, body.sales = some ss → ∀ s ∈ ss, 0 < s.amount
  | .delete _ _ => True

/-- The database state after the operation's request finishes (committed on
success, rolled back on failure). -/
def apply_op (db : DB) : LedgerOp → DB
  | .create u b n => (create_transaction db u b n).2
  | .update t b f => (update_transaction db t b f).2
  | .delete t r => (delete_transaction db t r).2

/-- The operation's outcome with the response value erased. -/
def op_result (db : DB) : LedgerOp → Except ApiErr Unit
  | .create u b n => (create_transaction db u b n).1.map (fun _ => ())
  | .update t b f => (update_transaction db t b f).1.map (fun _ => ())
  | .delete t r => (delete_transaction db t r).1

/-- A one-product store (product 1, stock 5, price 2), no transactions. -/
def dbC1 : DB := ⟨fun q => if q = 1 then some ⟨5, 2⟩ else none,
  fun _ => false, fun _ => none, [], [], 1⟩

/-- One committed create consuming 2 units of product 1. -/
def opsC1 : List LedgerOp := [.create 7 ⟨none, .Cash, [⟨1, 2, none⟩]⟩ 0]

/-- A two-product store (both with stock 5). -/
def dbC3 : DB := ⟨fun q => if q = 1 then some ⟨5, 2⟩ else if q = 2 then some ⟨5, 3⟩ else none,
  fun _ => false, fun _ => none, [], [], 1⟩

/-- A create whose only over-stock line item names product 2, but whose
second line item exhausts product 1 first. -/
def bodyC3 : CreateTransactionSchema := ⟨none, .Cash, [⟨1, 3, none⟩, ⟨1, 3, none⟩, ⟨2, 7, none⟩]⟩

/-- A create asking for 7 units of product 1 (stock 5). -/
def bodyC3w : CreateTransactionSchema := ⟨none, .Cash, [⟨1, 7, none⟩]⟩

/-- A user holding exactly 5 stored, unexpired tokens (now = 0). -/
def dbC4 : DB := ⟨fun _ => none, fun _ => false, fun _ => none, [],
  [⟨1, "t1", 100⟩, ⟨1, "t2", 100⟩, ⟨1, "t3", 100⟩, ⟨1, "t4", 100⟩, ⟨1, "t5", 100⟩], 1⟩

/-- A store holding one token whose value is "a". -/
def dbC5 : DB := ⟨fun _ => none, fun _ => false, fun _ => none, [], [⟨1, "a", 100⟩], 1⟩

/-- A store with transaction 7 present but owning zero sales rows. -/
def dbC6 : DB := ⟨fun _ => none, fun _ => false,
  fun t => if t = 7 then some ⟨1, none, .Cash, 0⟩ else none, [], [], 8⟩

/-- The same store with one sales row under transaction 7. -/
def dbC6b : DB := ⟨fun q => if q = 1 then some ⟨5, 2⟩ else none, fun _ => false,
  fun t => if t = 7 then some ⟨1, none, .Cash, 0⟩ else none, [⟨7, 1, 2, 2⟩], [], 8⟩

/-- A create consuming 2 units of product 1. -/
def bodyC7 : CreateTransactionSchema := ⟨none, .Card, [⟨1, 2, none⟩]⟩

/-- The committed state after running `bodyC7` against `dbC1`. -/
def db1C7 : DB := (create_transaction dbC1 7 bodyC7 0).2

/-- A store with product 1 (stock 10) and transaction 3 consuming 3 units
of it. -/
def dbC8 : DB := ⟨fun q => if q = 1 then some ⟨10, 4⟩ else none, fun _ => false,
  fun t => if t = 3 then some ⟨2, none, .BLIK, 0⟩ else none, [⟨3, 1, 3, 4⟩], [], 4⟩

/-- A list query supplying two filters (time range start and user). -/
def qC9two : TransactionQuery := ⟨some 0, none, some 1, none, none, none⟩

/-- A list query supplying a single filter. -/
def qC9one : TransactionQuery := ⟨some 0, none, none, none, none, none⟩

/-- A store with product 1 (stock 5) and transaction 3 owning one sales
row. -/
def dbC10 : DB := ⟨fun q => if q = 1 then some ⟨5, 2⟩ else none, fun _ => false,
  fun t => if t = 3 then some ⟨1, none, .Cash, 0⟩ else none, [⟨3, 1, 2, 2⟩], [], 4⟩

theorem run_request_ok {α : Type} {h : DB → Except ApiErr (α × DB)} {db : DB}
    {a : α} {db' : DB} (hh : h db = .ok (a, db')) :
    run_request h db = (.ok a, db') := by
  unfold run_request
  rw [hh]

theorem run_request_err {α : Type} {h : DB → Except ApiErr (α × DB)} {db : DB}
    {e : ApiErr} (hh : h db = .error e) : run_request h db = (.error e, db) := by
  unfold run_request
  rw [hh]

theorem run_request_rollback {α : Type} {h : DB → Except ApiErr (α × DB)} {db db' : DB}
    {e : ApiErr} (heq : run_request h db = (.error e, db')) : db' = db := by
  cases hh : h db with
  | ok p =>
      obtain ⟨a, d⟩ := p
      rw [run_request_ok hh] at heq
      simp at heq
  | error e2 =>
      rw [run_request_err hh] at heq
      simp at heq
      exact heq.2.symm

theorem run_request_fst_error {α : Type} {h : DB → Except ApiErr (α × DB)} {db : DB}
    {e : ApiErr} (heq : (run_request h db).1 = .error e) : (run_request h db).2 = db := by
  cases hh : h db with
  | ok p =>
      obtain ⟨a, d⟩ := p
      rw [run_request_ok hh] at heq
      simp at heq
  | error e2 =>
      rw [run_request_err hh]

theorem rowsAmount_nil (q : Nat) : rowsAmount [] q = 0 := rfl

theorem rowsAmount_cons (r : SaleRow) (rows : List SaleRow) (q : Nat) :
    rowsAmount (r :: rows) q =
      if r.product_id = q then r.amount + rowsAmount rows q else rowsAmount rows q := rfl

theorem rowsAmount_append (l1 l2 : List SaleRow) (q : Nat) :
    rowsAmount (l1 ++ l2) q = rowsAmount l1 q + rowsAmount l2 q := by
  induction l1 with
  | nil => simp [rowsAmount_nil]
  | cons r l ih =>
      rw [List.cons_append, rowsAmount_cons, rowsAmount_cons, ih]
      split <;> omega

theorem rowsAmount_nonneg {rows : List SaleRow} (h : ∀ r ∈ rows, 0 ≤ r.amount)
    (q : Nat) : 0 ≤ rowsAmount rows q := by
  induction rows with
  | nil => simp [rowsAmount_nil]
  | cons r l ih =>
      rw [rowsAmount_cons]
      have hr := h r (by simp)
      have hl := ih (fun x hx => h x (by simp [hx]))
      split <;> omega

theorem rowsAmount_filter_split (p : SaleRow → Bool) (l : List SaleRow) (q : Nat) :
    rowsAmount l q =
      rowsAmount (l.filter p) q + rowsAmount (l.filter (fun r => ! p r)) q := by
  induction l with
  | nil => simp [rowsAmount_nil]
  | cons r l ih =>
      rw [rowsAmount_cons]
      cases hp : p r <;>
        simp [List.filter_cons, hp, rowsAmount_cons] <;>
        split <;> omega

theorem reqAmount_nil (q : Nat) : reqAmount [] q = 0 := rfl

theorem reqAmount_cons (s : CreateSaleSchema) (ss : List CreateSaleSchema) (q : Nat) :
    reqAmount (s :: ss) q =
      if s.product_id = q then s.amount + reqAmount ss q else reqAmount ss q := rfl

theorem stockOf_eq_of_products {db db' : DB} (h : db'.products = db.products) (q : Nat) :
    stockOf db' q = stockOf db q := by
  unfold stockOf; rw [h]

theorem product_exists_eq_of_products {db db' : DB} (h : db'.products = db.products)
    (q : Nat) : product_exists db' q = product_exists db q := by
  unfold product_exists; rw [h]

theorem set_product_stock_sales (db : DB) (p : Nat) (pr : Product) (v : Int) :
    (set_product_stock db p pr v).sales = db.sales := rfl

theorem set_product_stock_transactions (db : DB) (p : Nat) (pr : Product) (v : Int) :
    (set_product_stock db p pr v).transactions = db.transactions := rfl

theorem set_product_stock_events (db : DB) (p : Nat) (pr : Product) (v : Int) :
    (set_product_stock db p pr v).events = db.events := rfl

theorem set_product_stock_tokens (db : DB) (p : Nat) (pr : Product) (v : Int) :
    (set_product_stock db p pr v).tokens = db.tokens := rfl

theorem set_product_stock_next (db : DB) (p : Nat) (pr : Product) (v : Int) :
    (set_product_stock db p pr v).next_transaction_id = db.next_transaction_id := rfl

theorem set_product_stock_dom {db : DB} {p : Nat} {pr : Product}
    (hp : db.products p = some pr) (v : Int) (q : Nat) :
    product_exists (set_product_stock db p pr v) q = product_exists db q := by
  show ((set_product_stock db p pr v).products q).isSome = (db.products q).isSome
  by_cases hq : q = p
  · subst hq; simp [set_product_stock, hp]
  · simp [set_product_stock, hq]

theorem set_product_stock_stockOf (db : DB) (p : Nat) (pr : Product) (v : Int)
    (q : Nat) :
    stockOf (set_product_stock db p pr v) q = if q = p then v else stockOf db q := by
  by_cases hq : q = p
  · subst hq; simp [stockOf, set_product_stock]
  · simp [stockOf, set_product_stock, hq]

theorem decrement_stock_none {db : DB} {p : Nat} (a : Int)
    (hp : db.products p = none) : decrement_stock db p a = .ok (db, 0) := by
  unfold decrement_stock
  rw [hp]

theorem decrement_stock_conflict {db : DB} {p : Nat} {a : Int} {pr : Product}
    (hp : db.products p = some pr) (hs : pr.stock - a < 0) :
    decrement_stock db p a = .error () := by
  unfold decrement_stock
  rw [hp]
  exact if_pos hs

theorem decrement_stock_some {db : DB} {p : Nat} {a : Int} {pr : Product}
    (hp : db.products p = some pr) (hs : ¬ pr.stock - a < 0) :
    decrement_stock db p a = .ok (set_product_stock db p pr (pr.stock - a), 1) := by
  unfold decrement_stock
  rw [hp]
  exact if_neg hs

theorem increment_stock_none {db : DB} {p : Nat} (a : Int)
    (hp : db.products p = none) : increment_stock db p a = .ok db := by
  unfold increment_stock
  rw [hp]

theorem increment_stock_fail {db : DB} {p : Nat} {a : Int} {pr : Product}
    (hp : db.products p = some pr) (hs : pr.stock + a < 0) :
    increment_stock db p a = .error () := by
  unfold increment_stock
  rw [hp]
  exact if_pos hs

theorem increment_stock_some {db : DB} {p : Nat} {a : Int} {pr : Product}
    (hp : db.products p = some pr) (hs : ¬ pr.stock + a < 0) :
    increment_stock db p a = .ok (set_product_stock db p pr (pr.stock + a)) := by
  unfold increment_stock
  rw [hp]
  exact if_neg hs

theorem sell_loop_cons_ok {db dbm : DB} {s : CreateSaleSchema} {rest : List CreateSaleSchema}
    (hd : decrement_stock db s.product_id s.amount = .ok (dbm, 1)) :
    sell_loop db (s :: rest) = sell_loop dbm rest := by
  conv_lhs => rw [sell_loop]
  rw [hd]
  rfl

theorem sell_loop_cons_zero {db dbm : DB} {s : CreateSaleSchema} {rest : List CreateSaleSchema}
    (hd : decrement_stock db s.product_id s.amount = .ok (dbm, 0)) :
    sell_loop db (s :: rest) = .error .notFoundProduct := by
  conv_lhs => rw [sell_loop]
  rw [hd]
  rfl

theorem sell_loop_cons_err {db : DB} {s : CreateSaleSchema} {rest : List CreateSaleSchema}
    (hd : decrement_stock db s.product_id s.amount = .error ()) :
    sell_loop db (s :: rest) = .error (.conflict s.product_id) := by
  conv_lhs => rw [sell_loop]
  rw [hd]

theorem return_loop_cons_ok {db dbm : DB} {r : SaleRow} {rest : List SaleRow}
    (hd : increment_stock db r.product_id r.amount = .ok dbm) :
    return_loop db (r :: rest) = return_loop dbm rest := by
  conv_lhs => rw [return_loop]
  rw [hd]

theorem return_loop_cons_err {db : DB} {r : SaleRow} {rest : List SaleRow}
    (hd : increment_stock db r.product_id r.amount = .error ()) :
    return_loop db (r :: rest) = .error (.fault "IntegrityError") := by
  conv_lhs => rw [return_loop]
  rw [hd]

/-- Full characterisation of a successful run of the stock-decrement loop:
only product stocks change, stocks drop by exactly the requested amounts,
non-negativity is preserved, and every line item's product existed. -/
theorem sell_loop_ok_spec :
    ∀ (ss : List CreateSaleSchema) (db db' : DB), sell_loop db ss = .ok db' →
      db'.sales = db.sales ∧ db'.transactions = db.transactions ∧
      db'.events = db.events ∧ db'.tokens = db.tokens ∧
      db'.next_transaction_id = db.next_transaction_id ∧
      (∀ q, product_exists db' q = product_exists db q) ∧
      (∀ q, stockOf db' q = stockOf db q - reqAmount ss q) ∧
      (∀ q, 0 ≤ stockOf db q → 0 ≤ stockOf db' q) ∧
      (∀ s ∈ ss, product_exists db s.product_id = true) := by
  intro ss
  induction ss with
  | nil =>
      intro db db' h
      unfold sell_loop at h
      simp only [Except.ok.injEq] at h
      subst h
      exact ⟨rfl, rfl, rfl, rfl, rfl, fun _ => rfl,
        fun q => by rw [reqAmount_nil]; omega, fun _ hq => hq, by simp⟩
  | cons s rest ih =>
      intro db db' h
      cases hp : db.products s.product_id with
      | none =>
          rw [sell_loop_cons_zero (decrement_stock_none s.amount hp)] at h
          exact Except.noConfusion h
      | some pr =>
          by_cases hs : pr.stock - s.amount < 0
          · rw [sell_loop_cons_err (decrement_stock_conflict hp hs)] at h
            exact Except.noConfusion h
          · rw [sell_loop_cons_ok (decrement_stock_some hp hs)] at h
            obtain ⟨f1, f2, f3, f4, f5, fdom, fstk, fnn, fex⟩ :=
              ih (set_product_stock db s.product_id pr (pr.stock - s.amount)) db' h
            have hdomm := set_product_stock_dom hp (pr.stock - s.amount)
            have hstkm := set_product_stock_stockOf db s.product_id pr (pr.stock - s.amount)
            rw [set_product_stock_sales] at f1
            rw [set_product_stock_transactions] at f2
            rw [set_product_stock_events] at f3
            rw [set_product_stock_tokens] at f4
            rw [set_product_stock_next] at f5
            refine ⟨f1, f2, f3, f4, f5, ?_, ?_, ?_, ?_⟩
            · intro q; rw [fdom q, hdomm q]
            · intro q
              rw [fstk q, hstkm q, reqAmount_cons]
              by_cases hq : q = s.product_id
              · subst hq
                simp [stockOf, hp]
                omega
              · rw [if_neg hq, if_neg (fun hc => hq hc.symm)]
            · intro q hq
              apply fnn
              rw [hstkm q]
              split <;> omega
            · intro t ht
              rcases List.mem_cons.mp ht with h1 | h2
              · subst h1
                show (db.products t.product_id).isSome = true
                simp [hp]
              · rw [← hdomm t.product_id]
                exact fex t h2

/-- A failing decrement loop: when every line item's product exists,
non-negative amounts are requested, and some line item asks for more than
the product's current stock, the loop fails with an insufficient-stock
conflict (naming the product of the first failing decrement). -/
theorem sell_loop_conflict :
    ∀ (ss : List CreateSaleSchema) (db : DB),
      (∀ s ∈ ss, product_exists db s.product_id = true) →
      (∀ s ∈ ss, 0 ≤ s.amount) →
      (∃ s ∈ ss, stockOf db s.product_id < s.amount) →
      ∃ p, sell_loop db ss = .error (.conflict p) := by
  intro ss
  induction ss with
  | nil => intro db _ _ hex; simp at hex
  | cons s rest ih =>
      intro db hprod hpos hex
      have hsp : product_exists db s.product_id = true := hprod s (by simp)
      unfold product_exists at hsp
      cases hp : db.products s.product_id with
      | none => rw [hp] at hsp; simp at hsp
      | some pr =>
          by_cases hs : pr.stock - s.amount < 0
          · exact ⟨s.product_id, sell_loop_cons_err (decrement_stock_conflict hp hs)⟩
          · have hdomm := set_product_stock_dom hp (pr.stock - s.amount)
            have hstkm : ∀ q,
                stockOf (set_product_stock db s.product_id pr (pr.stock - s.amount)) q ≤
                  stockOf db q := by
              intro q
              rw [set_product_stock_stockOf]
              have := hpos s (by simp)
              by_cases hq : q = s.product_id
              · subst hq
                simp [stockOf, hp]
                omega
              · rw [if_neg hq]
          -- the failing item cannot be the head, so it is in the tail
            obtain ⟨t, ht, htlt⟩ := hex
            rcases List.mem_cons.mp ht with h1 | h2
            · subst h1
              have hv : stockOf db t.product_id = pr.stock := by
                unfold stockOf
                rw [hp]
              omega
            · obtain ⟨p, hploop⟩ :=
                ih (set_product_stock db s.product_id pr (pr.stock - s.amount))
                  (fun x hx => by rw [hdomm x.product_id]; exact hprod x (by simp [hx]))
                  (fun x hx => hpos x (by simp [hx]))
                  ⟨t, h2, lt_of_le_of_lt (hstkm t.product_id) htlt⟩
              exact ⟨p, (sell_loop_cons_ok (decrement_stock_some hp hs)).trans hploop⟩

/-- Successful stock-restore loop: only product stocks change; when every
returned row's product exists, stocks grow by exactly the returned
amounts. -/
theorem return_loop_ok_spec :
    ∀ (rows : List SaleRow) (db db' : DB), return_loop db rows = .ok db' →
      db'.sales = db.sales ∧ db'.transactions = db.transactions ∧
      db'.events = db.events ∧ db'.tokens = db.tokens ∧
      db'.next_transaction_id = db.next_transaction_id ∧
      (∀ q, product_exists db' q = product_exists db q) ∧
      ((∀ r ∈ rows, product_exists db r.product_id = true) →
        ∀ q, stockOf db' q = stockOf db q + rowsAmount rows q) := by
  intro rows
  induction rows with
  | nil =>
      intro db db' h
      unfold return_loop at h
      simp only [Except.ok.injEq] at h
      subst h
      exact ⟨rfl, rfl, rfl, rfl, rfl, fun _ => rfl,
        fun _ q => by rw [rowsAmount_nil]; omega⟩
  | cons r rest ih =>
      intro db db' h
      cases hp : db.products r.product_id with
      | none =>
          rw [return_loop_cons_ok (increment_stock_none r.amount hp)] at h
          obtain ⟨f1, f2, f3, f4, f5, fdom, fstk⟩ := ih db db' h
          refine ⟨f1, f2, f3, f4, f5, fdom, ?_⟩
          intro hex q
          have hr := hex r (by simp)
          unfold product_exists at hr
          rw [hp] at hr
          simp at hr
      | some pr =>
          by_cases hs : pr.stock + r.amount < 0
          · rw [return_loop_cons_err (increment_stock_fail hp hs)] at h
            exact Except.noConfusion h
          · rw [return_loop_cons_ok (increment_stock_some hp hs)] at h
            obtain ⟨f1, f2, f3, f4, f5, fdom, fstk⟩ :=
              ih (set_product_stock db r.product_id pr (pr.stock + r.amount)) db' h
            have hdomm := set_product_stock_dom hp (pr.stock + r.amount)
            have hstkm := set_product_stock_stockOf db r.product_id pr (pr.stock + r.amount)
            rw [set_product_stock_sales] at f1
            rw [set_product_stock_transactions] at f2
            rw [set_product_stock_events] at f3
            rw [set_product_stock_tokens] at f4
            rw [set_product_stock_next] at f5
            refine ⟨f1, f2, f3, f4, f5, fun q => (fdom q).trans (hdomm q), ?_⟩
            intro hex q
            have hrec := fstk
              (fun x hx => by rw [hdomm x.product_id]; exact hex x (by simp [hx])) q
            rw [hrec, hstkm q, rowsAmount_cons]
            by_cases hq : q = r.product_id
            · subst hq
              simp [stockOf, hp]
              omega
            · rw [if_neg hq, if_neg (fun hc => hq hc.symm)]

/-- The restore loop cannot fail when all stocks are non-negative and all
returned amounts are non-negative. -/
theorem return_loop_total :
    ∀ (rows : List SaleRow) (db : DB),
      (∀ q, 0 ≤ stockOf db q) → (∀ r ∈ rows, 0 ≤ r.amount) →
      ∃ db', return_loop db rows = .ok db' := by
  intro rows
  induction rows with
  | nil => intro db _ _; exact ⟨db, rfl⟩
  | cons r rest ih =>
      intro db hstk hpos
      cases hp : db.products r.product_id with
      | none =>
          obtain ⟨db', hdb'⟩ := ih db hstk (fun x hx => hpos x (by simp [hx]))
          exact ⟨db', (return_loop_cons_ok (increment_stock_none r.amount hp)).trans hdb'⟩
      | some pr =>
          have h0 : 0 ≤ pr.stock := by
            have hh := hstk r.product_id
            unfold stockOf at hh
            rw [hp] at hh
            exact hh
          have ha := hpos r (by simp)
          have hs : ¬ pr.stock + r.amount < 0 := by omega
          have hstk' : ∀ q,
              0 ≤ stockOf (set_product_stock db r.product_id pr (pr.stock + r.amount)) q := by
            intro q
            rw [set_product_stock_stockOf]
            split
            · omega
            · exact hstk q
          obtain ⟨db', hdb'⟩ := ih _ hstk' (fun x hx => hpos x (by simp [hx]))
          exact ⟨db', (return_loop_cons_ok (increment_stock_some hp hs)).trans hdb'⟩

/-- Characterisation of the sales-insert loop: it appends one row per line
item (with the requested product and amount under the given transaction
id) and touches nothing else. -/
theorem insert_sales_spec :
    ∀ (ss : List CreateSaleSchema) (db : DB) (tid : Nat),
      ∃ rows : List SaleRow,
        (insert_sales db tid ss).sales = db.sales ++ rows ∧
        (insert_sales db tid ss).products = db.products ∧
        (insert_sales db tid ss).transactions = db.transactions ∧
        (insert_sales db tid ss).events = db.events ∧
        (insert_sales db tid ss).tokens = db.tokens ∧
        (insert_sales db tid ss).next_transaction_id = db.next_transaction_id ∧
        rows.length = ss.length ∧
        (∀ r ∈ rows, r.transaction_id = tid) ∧
        (∀ q, rowsAmount rows q = reqAmount ss q) ∧
        (∀ r ∈ rows, ∃ s ∈ ss, r.product_id = s.product_id ∧ r.amount = s.amount) := by
  intro ss
  induction ss with
  | nil =>
      intro db tid
      exact ⟨[], by simp [insert_sales], rfl, rfl, rfl, rfl, rfl, rfl,
        by simp, fun q => rfl, by simp⟩
  | cons s rest ih =>
      intro db tid
      have hstep : insert_sales db tid (s :: rest) =
          insert_sales { db with sales := db.sales ++
            [⟨tid, s.product_id, s.amount, s.price.getD (product_price db s.product_id)⟩] }
            tid rest := by
        conv_lhs => rw [insert_sales]
      obtain ⟨rows, h1, h2, h3, h4, h5, h6, hlen, htid, hamt, hmap⟩ := ih _ tid
      refine ⟨⟨tid, s.product_id, s.amount,
          s.price.getD (product_price db s.product_id)⟩ :: rows, ?_, ?_, ?_, ?_, ?_, ?_, ?_, ?_, ?_, ?_⟩
      · rw [hstep, h1]
        simp
      · rw [hstep]; exact h2
      · rw [hstep]; exact h3
      · rw [hstep]; exact h4
      · rw [hstep]; exact h5
      · rw [hstep]; exact h6
      · simp [hlen]
      · intro r hr
        rcases List.mem_cons.mp hr with h | h
        · subst h; rfl
        · exact htid r h
      · intro q
        rw [rowsAmount_cons, reqAmount_cons, hamt q]
      · intro r hr
        rcases List.mem_cons.mp hr with h | h
        · subst h
          exact ⟨s, by simp, rfl, rfl⟩
        · obtain ⟨t, ht, hh⟩ := hmap r h
          exact ⟨t, by simp [ht], hh⟩

theorem insert_transaction_header_ok {db : DB} {u : Nat} {e : Option Nat}
    {pm : PaymentMethod} {now : Int} (hfk : fk_ok db e = true) :
    insert_transaction_header db u e pm now =
      .ok (db.next_transaction_id, (header_row_insert db u e pm now).2) := by
  unfold insert_transaction_header header_row_insert
  rw [if_pos hfk]

theorem insert_transaction_header_err {db : DB} {u : Nat} {e : Option Nat}
    {pm : PaymentMethod} {now : Int} (hfk : fk_ok db e = false) :
    insert_transaction_header db u e pm now = .error .notFoundEvent := by
  unfold insert_transaction_header
  simp [hfk]

/-- Inversion of a successful create handler run. -/
theorem create_handler_ok_inv {db : DB} {u : Nat} {b : CreateTransactionSchema}
    {n : Int} {tid : Nat} {dbF : DB}
    (h : create_transaction_handler db u b n = .ok (tid, dbF)) :
    ∃ db1, sell_loop db b.sales = .ok db1 ∧ fk_ok db1 b.event_id = true ∧
      tid = db1.next_transaction_id ∧
      dbF = insert_sales (header_row_insert db1 u b.event_id b.payment_method n).2
        tid b.sales := by
  unfold create_transaction_handler at h
  cases h1 : sell_loop db b.sales with
  | error e => rw [h1] at h; exact Except.noConfusion h
  | ok db1 =>
      rw [h1] at h
      simp only [] at h
      cases hfk : fk_ok db1 b.event_id with
      | false =>
          rw [insert_transaction_header_err hfk] at h
          exact Except.noConfusion h
      | true =>
          rw [insert_transaction_header_ok hfk] at h
          simp only [Except.ok.injEq, Prod.mk.injEq] at h
          obtain ⟨htid, hdbF⟩ := h
          rw [htid] at hdbF
          exact ⟨db1, rfl, hfk, htid.symm, hdbF.symm⟩

theorem delete_handler_notFound {db : DB} {tid : Nat} {rp : Bool}
    (hlen : (tx_sales db tid).length = 0) :
    delete_transaction_handler db tid rp = .error .notFoundTransaction := by
  unfold delete_transaction_handler
  rw [if_pos hlen]

/-- Inversion of a successful delete handler run. -/
theorem delete_handler_ok_inv {db : DB} {tid : Nat} {rp : Bool} {dbF : DB}
    (h : delete_transaction_handler db tid rp = .ok ((), dbF)) :
    (tx_sales db tid).length ≠ 0 ∧
    ∃ db2,
      (if rp = true
        then return_loop (without_tx_sales db tid) (tx_sales db tid) = .ok db2
        else db2 = without_tx_sales db tid) ∧
      dbF = drop_tx_header db2 tid := by
  unfold delete_transaction_handler at h
  by_cases hlen : (tx_sales db tid).length = 0
  · rw [if_pos hlen] at h; exact Except.noConfusion h
  · rw [if_neg hlen] at h
    refine ⟨hlen, ?_⟩
    cases rp with
    | true =>
        rw [if_pos rfl] at h
        cases hr : return_loop (without_tx_sales db tid) (tx_sales db tid) with
        | error e => rw [hr] at h; exact Except.noConfusion h
        | ok db2 =>
            rw [hr] at h
            simp only [Except.ok.injEq, Prod.mk.injEq] at h
            exact ⟨db2, by rw [if_pos rfl], h.2.symm⟩
    | false =>
        rw [if_neg Bool.false_ne_true] at h
        simp only [Except.ok.injEq, Prod.mk.injEq] at h
        exact ⟨without_tx_sales db tid, by rw [if_neg Bool.false_ne_true], h.2.symm⟩

theorem update_handler_none {db : DB} {tid : Nat} {body : UpdateTransaction}
    {force : Bool} (hrow : db.transactions tid = none) :
    update_transaction_handler db tid body force = .error .notFoundTransaction := by
  unfold update_transaction_handler
  rw [hrow]

theorem update_handler_some {db : DB} {tid : Nat} {body : UpdateTransaction}
    {force : Bool} {row : TxRow} (hrow : db.transactions tid = some row) :
    update_transaction_handler db tid body force =
      (if fk_ok db body.event_id then
        match (if force
            then .ok (without_tx_sales (update_header db tid row body) tid)
            else return_loop (without_tx_sales (update_header db tid row body) tid)
              (tx_sales (update_header db tid row body) tid) : Except ApiErr DB) with
        | .error e => .error e
        | .ok db3 =>
            match body.sales with
            | none => .error (.fault "TypeError")
            | some ss =>
                match sell_loop db3 ss with
                | .error e => .error e
                | .ok db4 => .ok (tid, insert_sales db4 tid ss)
      else .error .notFoundEvent) := by
  unfold update_transaction_handler
  rw [hrow]

/-- Inversion of a successful update handler run. -/
theorem update_handler_ok_inv {db : DB} {tid : Nat} {body : UpdateTransaction}
    {force : Bool} {r : Nat} {dbF : DB}
    (h : update_transaction_handler db tid body force = .ok (r, dbF)) :
    ∃ row ss dbR dbS,
      db.transactions tid = some row ∧
      fk_ok db body.event_id = true ∧
      body.sales = some ss ∧
      r = tid ∧
      (if force = true
        then dbR = without_tx_sales (update_header db tid row body) tid
        else return_loop (without_tx_sales (update_header db tid row body) tid)
          (tx_sales (update_header db tid row body) tid) = .ok dbR) ∧
      sell_loop dbR ss = .ok dbS ∧
      dbF = insert_sales dbS tid ss := by
  cases hrow : db.transactions tid with
  | none => rw [update_handler_none hrow] at h; exact Except.noConfusion h
  | some row =>
      rw [update_handler_some hrow] at h
      by_cases hfk : fk_ok db body.event_id = true
      · rw [if_pos hfk] at h
        have step : ∃ dbR,
            (if force = true
              then dbR = without_tx_sales (update_header db tid row body) tid
              else return_loop (without_tx_sales (update_header db tid row body) tid)
                (tx_sales (update_header db tid row body) tid) = .ok dbR) ∧
            (match (body.sales : Option (List CreateSaleSchema)) with
              | none => Except.error (ApiErr.fault "TypeError")
              | some ss =>
                  match sell_loop dbR ss with
                  | .error e => .error e
                  | .ok db4 => .ok (tid, insert_sales db4 tid ss)) = .ok (r, dbF) := by
          cases force with
          | true =>
              rw [if_pos rfl] at h
              simp only [] at h
              exact ⟨without_tx_sales (update_header db tid row body) tid,
                by rw [if_pos rfl], h⟩
          | false =>
              rw [if_neg Bool.false_ne_true] at h
              cases hr : return_loop (without_tx_sales (update_header db tid row body) tid)
                  (tx_sales (update_header db tid row body) tid) with
              | error e => rw [hr] at h; exact Except.noConfusion h
              | ok dbR =>
                  rw [hr] at h
                  simp only [] at h
                  exact ⟨dbR, by rw [if_neg Bool.false_ne_true], h⟩
        obtain ⟨dbR, hR, h2⟩ := step
        cases hss : body.sales with
        | none => rw [hss] at h2; exact Except.noConfusion h2
        | some ss =>
            rw [hss] at h2
            simp only [] at h2
            cases hsell : sell_loop dbR ss with
            | error e => rw [hsell] at h2; exact Except.noConfusion h2
            | ok dbS =>
                rw [hsell] at h2
                simp only [Except.ok.injEq, Prod.mk.injEq] at h2
                obtain ⟨hrr, hdbF⟩ := h2
                exact ⟨row, ss, dbR, dbS, rfl, hfk, rfl, hrr.symm, hR, hsell, hdbF.symm⟩
      · have hfk2 : fk_ok db body.event_id = false := by
          cases hv : fk_ok db body.event_id
          · rfl
          · exact absurd hv hfk
        rw [if_neg (by rw [hfk2]; exact Bool.false_ne_true)] at h
        exact Except.noConfusion h

theorem mem_tx_sales {db : DB} {tid : Nat} {r : SaleRow} :
    r ∈ tx_sales db tid ↔ r ∈ db.sales ∧ r.transaction_id = tid := by
  unfold tx_sales
  simp [List.mem_filter]

theorem mem_without_tx_sales {db : DB} {tid : Nat} {r : SaleRow} :
    r ∈ (without_tx_sales db tid).sales ↔ r ∈ db.sales ∧ r.transaction_id ≠ tid := by
  unfold without_tx_sales
  simp [List.mem_filter]

theorem rowsAmount_tx_split (db : DB) (tid : Nat) (q : Nat) :
    rowsAmount db.sales q =
      rowsAmount (tx_sales db tid) q + rowsAmount ((without_tx_sales db tid).sales) q :=
  rowsAmount_filter_split (fun r => r.transaction_id == tid) db.sales q

theorem tx_sales_update_header (db : DB) (tid : Nat) (row : TxRow)
    (body : UpdateTransaction) :
    tx_sales (update_header db tid row body) tid = tx_sales db tid := rfl

theorem without_tx_sales_update_header (db : DB) (tid : Nat) (row : TxRow)
    (body : UpdateTransaction) :
    (without_tx_sales (update_header db tid row body) tid).sales =
      (without_tx_sales db tid).sales := rfl

theorem create_transaction_eq_ok {db db' : DB} {u : Nat} {b : CreateTransactionSchema}
    {n : Int} {tid : Nat} (hh : create_transaction_handler db u b n = .ok (tid, db')) :
    create_transaction db u b n = (.ok tid, db') := by
  unfold create_transaction run_request
  simp only []
  rw [hh]

theorem create_transaction_eq_err {db : DB} {u : Nat} {b : CreateTransactionSchema}
    {n : Int} {e : ApiErr} (hh : create_transaction_handler db u b n = .error e) :
    create_transaction db u b n = (.error e, db) := by
  unfold create_transaction run_request
  simp only []
  rw [hh]

theorem delete_transaction_eq_ok {db db' : DB} {tid : Nat} {rp : Bool}
    (hh : delete_transaction_handler db tid rp = .ok ((), db')) :
    delete_transaction db tid rp = (.ok (), db') := by
  unfold delete_transaction run_request
  simp only []
  rw [hh]

theorem delete_transaction_eq_err {db : DB} {tid : Nat} {rp : Bool} {e : ApiErr}
    (hh : delete_transaction_handler db tid rp = .error e) :
    delete_transaction db tid rp = (.error e, db) := by
  unfold delete_transaction run_request
  simp only []
  rw [hh]

theorem update_transaction_eq_ok {db db' : DB} {tid r : Nat} {body : UpdateTransaction}
    {force : Bool} (hh : update_transaction_handler db tid body force = .ok (r, db')) :
    update_transaction db tid body force = (.ok r, db') := by
  unfold update_transaction run_request
  simp only []
  rw [hh]

theorem update_transaction_eq_err {db : DB} {tid : Nat} {body : UpdateTransaction}
    {force : Bool} {e : ApiErr} (hh : update_transaction_handler db tid body force = .error e) :
    update_transaction db tid body force = (.error e, db) := by
  unfold update_transaction run_request
  simp only []
  rw [hh]

theorem login_user_eq_ok {db db' : DB} {u : Nat} {now : Int} {vs : List String}
    {t : TokenRow} (hh : login_user_handler db u now vs = .ok (t, db')) :
    login_user db u now vs = (.ok t, db') := by
  unfold login_user run_request
  simp only []
  rw [hh]

theorem login_user_eq_err {db : DB} {u : Nat} {now : Int} {vs : List String}
    {e : ApiErr} (hh : login_user_handler db u now vs = .error e) :
    login_user db u now vs = (.error e, db) := by
  unfold login_user run_request
  simp only []
  rw [hh]

/-- A committed create preserves the ledger invariant. -/
theorem create_preserves_stock_ok {init : Nat → Int} {db : DB} {u : Nat}
    {b : CreateTransactionSchema} {n : Int}
    (hok : stock_ok init db) (hpos : ∀ s ∈ b.sales, 0 ≤ s.amount) :
    stock_ok init (create_transaction db u b n).2 := by
  cases hh : create_transaction_handler db u b n with
  | error e =>
      rw [create_transaction_eq_err hh]
      exact hok
  | ok p =>
      obtain ⟨tid, dbF⟩ := p
      rw [create_transaction_eq_ok hh]
      obtain ⟨db1, hsell, hfk, htid, hdbF⟩ := create_handler_ok_inv hh
      obtain ⟨s1, s2, s3, s4, s5, sdom, sstk, snn, sex⟩ := sell_loop_ok_spec b.sales db db1 hsell
      obtain ⟨rows, i1, i2, i3, i4, i5, i6, ilen, itid, iamt, imap⟩ :=
        insert_sales_spec b.sales (header_row_insert db1 u b.event_id b.payment_method n).2 tid
      have h2prod : (header_row_insert db1 u b.event_id b.payment_method n).2.products
          = db1.products := rfl
      have h2sales : (header_row_insert db1 u b.event_id b.payment_method n).2.sales
          = db1.sales := rfl
      have hprodF : dbF.products = db1.products := by
        rw [hdbF, i2, h2prod]
      have hstockF : ∀ q, stockOf dbF q = stockOf db q - reqAmount b.sales q := by
        intro q
        rw [stockOf_eq_of_products hprodF q, sstk q]
      have hdomF : ∀ q, product_exists dbF q = product_exists db q := by
        intro q
        rw [product_exists_eq_of_products hprodF q, sdom q]
      have hsalesF : dbF.sales = db.sales ++ rows := by
        rw [hdbF, i1, h2sales, s1]
      refine ⟨?_, ?_, ?_⟩
      · intro q
        rw [stockOf_eq_of_products hprodF q]
        exact snn q (hok.1 q)
      · intro q
        rw [hstockF q, hsalesF, rowsAmount_append, iamt q]
        have hb := hok.2.1 q
        omega
      · intro r hr
        rw [hsalesF] at hr
        rcases List.mem_append.mp hr with hold | hnew
        · obtain ⟨ha, he⟩ := hok.2.2 r hold
          exact ⟨ha, by rw [hdomF]; exact he⟩
        · obtain ⟨s, hsmem, hpid, hamt⟩ := imap r hnew
          refine ⟨by rw [hamt]; exact hpos s hsmem, ?_⟩
          rw [hdomF, hpid]
          exact sex s hsmem

/-- A committed delete preserves the ledger invariant. -/
theorem delete_preserves_stock_ok {init : Nat → Int} {db : DB} {tid : Nat}
    {rp : Bool} (hok : stock_ok init db) :
    stock_ok init (delete_transaction db tid rp).2 := by
  cases hh : delete_transaction_handler db tid rp with
  | error e =>
      rw [delete_transaction_eq_err hh]
      exact hok
  | ok p =>
      obtain ⟨u, dbF⟩ := p
      cases u
      rw [delete_transaction_eq_ok hh]
      obtain ⟨hlen, db2, hstep, hdbF⟩ := delete_handler_ok_inv hh
      have htxpos : ∀ r ∈ tx_sales db tid, 0 ≤ r.amount := by
        intro r hr
        exact (hok.2.2 r (mem_tx_sales.mp hr).1).1
      have htxex : ∀ r ∈ tx_sales db tid, product_exists db r.product_id = true := by
        intro r hr
        exact (hok.2.2 r (mem_tx_sales.mp hr).1).2
      have hchar : db2.sales = (without_tx_sales db tid).sales ∧
          (∀ q, product_exists db2 q = product_exists db q) ∧
          (∀ q, stockOf db2 q = stockOf db q +
            (if rp = true then rowsAmount (tx_sales db tid) q else 0)) := by
        cases rp with
        | false =>
            rw [if_neg Bool.false_ne_true] at hstep
            subst hstep
            exact ⟨rfl, fun q => rfl, fun q => by
              rw [if_neg Bool.false_ne_true,
                stockOf_eq_of_products
                  (show (without_tx_sales db tid).products = db.products from rfl) q]
              omega⟩
        | true =>
            rw [if_pos rfl] at hstep
            obtain ⟨r1, r2, r3, r4, r5, rdom, rstk⟩ :=
              return_loop_ok_spec (tx_sales db tid) (without_tx_sales db tid) db2 hstep
            refine ⟨r1, fun q => rdom q, fun q => ?_⟩
            rw [if_pos rfl]
            have := rstk htxex q
            rw [this]
            rfl
      have hdsales : dbF.sales = db2.sales := by rw [hdbF]; rfl
      have hdprod : dbF.products = db2.products := by rw [hdbF]; rfl
      have hsplit := rowsAmount_tx_split db tid
      have htxnn : ∀ q, 0 ≤ rowsAmount (tx_sales db tid) q := rowsAmount_nonneg htxpos
      refine ⟨?_, ?_, ?_⟩
      · intro q
        rw [stockOf_eq_of_products hdprod q, hchar.2.2 q]
        have h1 := hok.1 q
        have h2 := htxnn q
        split <;> omega
      · intro q
        rw [stockOf_eq_of_products hdprod q, hchar.2.2 q, hdsales, hchar.1]
        have hb := hok.2.1 q
        have h2 := htxnn q
        have hs := hsplit q
        split <;> omega
      · intro r hr
        rw [hdsales, hchar.1] at hr
        obtain ⟨hmem, -⟩ := mem_without_tx_sales.mp hr
        obtain ⟨ha, he⟩ := hok.2.2 r hmem
        refine ⟨ha, ?_⟩
        rw [product_exists_eq_of_products hdprod, hchar.2.1]
        exact he

/-- A committed update preserves the ledger invariant. -/
theorem update_preserves_stock_ok {init : Nat → Int} {db : DB} {tid : Nat}
    {body : UpdateTransaction} {force : Bool}
    (hok : stock_ok init db)
    (hpos : ∀ ss, body.sales = some ss → ∀ s ∈ ss, 0 ≤ s.amount) :
    stock_ok init (update_transaction db tid body force).2 := by
  cases hh : update_transaction_handler db tid body force with
  | error e =>
      rw [update_transaction_eq_err hh]
      exact hok
  | ok p =>
      obtain ⟨r, dbF⟩ := p
      rw [update_transaction_eq_ok hh]
      obtain ⟨row, ss, dbR, dbS, hrow, hfk, hss, hr, hR, hsell, hdbF⟩ :=
        update_handler_ok_inv hh
      have hposs : ∀ s ∈ ss, 0 ≤ s.amount := hpos ss hss
      have htxpos : ∀ x ∈ tx_sales db tid, 0 ≤ x.amount := by
        intro x hx
        exact (hok.2.2 x (mem_tx_sales.mp hx).1).1
      have htxnn : ∀ q, 0 ≤ rowsAmount (tx_sales db tid) q := rowsAmount_nonneg htxpos
      have hRchar : dbR.sales = (without_tx_sales db tid).sales ∧
          (∀ q, product_exists dbR q = product_exists db q) ∧
          (∀ q, stockOf dbR q = stockOf db q +
            (if force = true then 0 else rowsAmount (tx_sales db tid) q)) := by
        cases force with
        | true =>
            rw [if_pos rfl] at hR
            subst hR
            exact ⟨rfl, fun q => rfl, fun q => by
              rw [if_pos rfl,
                stockOf_eq_of_products
                  (show (without_tx_sales (update_header db tid row body) tid).products
                    = db.products from rfl) q]
              omega⟩
        | false =>
            rw [if_neg Bool.false_ne_true] at hR
            obtain ⟨r1, r2, r3, r4, r5, rdom, rstk⟩ :=
              return_loop_ok_spec (tx_sales (update_header db tid row body) tid)
                (without_tx_sales (update_header db tid row body) tid) dbR hR
            have hex : ∀ x ∈ tx_sales (update_header db tid row body) tid,
                product_exists (without_tx_sales (update_header db tid row body) tid)
                  x.product_id = true := by
              intro x hx
              rw [tx_sales_update_header] at hx
              exact (hok.2.2 x (mem_tx_sales.mp hx).1).2
            refine ⟨r1, fun q => rdom q, fun q => ?_⟩
            rw [if_neg Bool.false_ne_true]
            have hst := rstk hex q
            rw [hst]
            rfl
      obtain ⟨s1, s2, s3, s4, s5, sdom, sstk, snn, sex⟩ := sell_loop_ok_spec ss dbR dbS hsell
      obtain ⟨rows2, i1, i2, i3, i4, i5, i6, ilen, itid, iamt, imap⟩ :=
        insert_sales_spec ss dbS tid
      have hprodF : ∀ q, product_exists dbF q = product_exists db q := by
        intro q
        rw [hdbF, product_exists_eq_of_products i2 q, sdom q, hRchar.2.1 q]
      have hstockF : ∀ q, stockOf dbF q = stockOf dbR q - reqAmount ss q := by
        intro q
        rw [hdbF, stockOf_eq_of_products i2 q, sstk q]
      have hsalesF : dbF.sales = (without_tx_sales db tid).sales ++ rows2 := by
        rw [hdbF, i1, s1, hRchar.1]
      have hsplit := rowsAmount_tx_split db tid
      refine ⟨?_, ?_, ?_⟩
      · intro q
        rw [hstockF q, sub_nonneg]
        have hnn := snn q (by
          rw [hRchar.2.2 q]
          have h1 := hok.1 q
          have h2 := htxnn q
          split <;> omega)
        have := sstk q
        omega
      · intro q
        rw [hstockF q, hRchar.2.2 q, hsalesF, rowsAmount_append, iamt q]
        have hb := hok.2.1 q
        have h2 := htxnn q
        have hs := hsplit q
        split <;> omega
      · intro x hx
        rw [hsalesF] at hx
        rcases List.mem_append.mp hx with hold | hnew
        · obtain ⟨hmem, -⟩ := mem_without_tx_sales.mp hold
          obtain ⟨ha, he⟩ := hok.2.2 x hmem
          exact ⟨ha, by rw [hprodF]; exact he⟩
        · obtain ⟨s, hsmem, hpid, hamt⟩ := imap x hnew
          refine ⟨by rw [hamt]; exact hposs s hsmem, ?_⟩
          rw [hprodF, hpid]
          have := sex s hsmem
          rw [← hRchar.2.1 s.product_id]
          exact this

/-- Any committed Order Ledger operation with positive request amounts
preserves the ledger invariant. -/
theorem op_preserves_stock_ok {init : Nat → Int} {db : DB} (op : LedgerOp)
    (hok : stock_ok init db) (hamt : op_amounts_ok op) :
    stock_ok init (apply_op db op) := by
  cases op with
  | create u b n =>
      exact create_preserves_stock_ok hok (fun s hs => le_of_lt (hamt s hs))
  | update t b f =>
      exact update_preserves_stock_ok hok (fun ss hss s hs => le_of_lt (hamt ss hss s hs))
  | delete t r =>
      exact delete_preserves_stock_ok hok

/-- A failing operation leaves the database exactly as it was (the
transaction rolls back). -/
theorem op_rollback {db : DB} {op : LedgerOp} {e : ApiErr}
    (h : op_result db op = .error e) : apply_op db op = db := by
  cases op with
  | create u b n =>
      simp only [op_result] at h
      simp only [apply_op]
      cases hh : create_transaction_handler db u b n with
      | error e2 => rw [create_transaction_eq_err hh]
      | ok p =>
          obtain ⟨tid, dbF⟩ := p
          rw [create_transaction_eq_ok hh] at h
          simp [Except.map] at h
  | update t b f =>
      simp only [op_result] at h
      simp only [apply_op]
      cases hh : update_transaction_handler db t b f with
      | error e2 => rw [update_transaction_eq_err hh]
      | ok p =>
          obtain ⟨r, dbF⟩ := p
          rw [update_transaction_eq_ok hh] at h
          simp [Except.map] at h
  | delete t r =>
      simp only [op_result] at h
      simp only [apply_op]
      cases hh : delete_transaction_handler db t r with
      | error e2 => rw [delete_transaction_eq_err hh]
      | ok p =>
          obtain ⟨u, dbF⟩ := p
          cases u
          rw [delete_transaction_eq_ok hh] at h
          simp at h

/-- The invariant holds after every sequence of committed operations. -/
theorem foldl_preserves_stock_ok {init : Nat → Int} :
    ∀ (ops : List LedgerOp) (db : DB), stock_ok init db →
      (∀ op ∈ ops, op_amounts_ok op) →
      stock_ok init (List.foldl apply_op db ops) := by
  intro ops
  induction ops with
  | nil => intro db h _; exact h
  | cons op rest ih =>
      intro db h hall
      exact ih _ (op_preserves_stock_ok op h (hall op (by simp)))
        (fun x hx => hall x (by simp [hx]))

/-- The invariant holds in a fresh ledger state. -/
theorem stock_ok_start {db0 : DB} (hsales : db0.sales = [])
    (hstk : ∀ q, 0 ≤ stockOf db0 q) : stock_ok (stockOf db0) db0 := by
  refine ⟨hstk, ?_, ?_⟩
  · intro q
    rw [hsales, rowsAmount_nil]
    omega
  · intro r hr
    rw [hsales] at hr
    cases hr

theorem delete_handler_ok_return {db db2 : DB} {tid : Nat}
    (hlen : (tx_sales db tid).length ≠ 0)
    (hr : return_loop (without_tx_sales db tid) (tx_sales db tid) = .ok db2) :
    delete_transaction_handler db tid true = .ok ((), drop_tx_header db2 tid) := by
  unfold delete_transaction_handler
  rw [if_neg hlen, if_pos rfl, hr]

theorem delete_handler_ok_noreturn {db : DB} {tid : Nat}
    (hlen : (tx_sales db tid).length ≠ 0) :
    delete_transaction_handler db tid false =
      .ok ((), drop_tx_header (without_tx_sales db tid) tid) := by
  unfold delete_transaction_handler
  rw [if_neg hlen, if_neg Bool.false_ne_true]

theorem login_iteration_fresh {db : DB} {uid : Nat} {expires : Int} {v : String}
    (hany : db.tokens.any (fun t => t.value == v) = false) :
    login_iteration db uid expires v =
      .brk ⟨uid, v, expires⟩ { db with tokens := ⟨uid, v, expires⟩ :: db.tokens } := by
  unfold login_iteration
  rw [hany]
  rfl

theorem login_iteration_collision {db : DB} {uid : Nat} {expires : Int} {v : String}
    (hany : db.tokens.any (fun t => t.value == v) = true) :
    login_iteration db uid expires v = .err (.fault "ProgrammingError") := by
  unfold login_iteration
  rw [hany]
  rfl

/-- The loop body never requests another iteration: the `finally` block
always breaks or raises, so the `continue` of the except clause is dead. -/
theorem login_iteration_ne_cont (db : DB) (uid : Nat) (expires : Int) (v : String)
    (db' : DB) : login_iteration db uid expires v ≠ .cont db' := by
  unfold login_iteration
  split <;> intro hc <;> cases hc

theorem login_loop_fresh {db : DB} {uid : Nat} {expires : Int} {v : String}
    {vs : List String} (hany : db.tokens.any (fun t => t.value == v) = false) :
    login_loop db uid expires (v :: vs) =
      .ok (⟨uid, v, expires⟩, { db with tokens := ⟨uid, v, expires⟩ :: db.tokens }) := by
  conv_lhs => rw [login_loop]
  rw [login_iteration_fresh hany]

theorem login_loop_collision {db : DB} {uid : Nat} {expires : Int} {v : String}
    {vs : List String} (hany : db.tokens.any (fun t => t.value == v) = true) :
    login_loop db uid expires (v :: vs) = .error (.fault "ProgrammingError") := by
  conv_lhs => rw [login_loop]
  rw [login_iteration_collision hany]

/-- The loop's outcome depends only on the first generated value: no later
value in the stream is ever consumed. -/
theorem login_loop_head_only (db : DB) (uid : Nat) (expires : Int) (v : String)
    (vs vs' : List String) :
    login_loop db uid expires (v :: vs) = login_loop db uid expires (v :: vs') := by
  conv_lhs => rw [login_loop]
  conv_rhs => rw [login_loop]
  cases hit : login_iteration db uid expires v with
  | brk t db2 => rfl
  | err e => rfl
  | cont db2 => exact absurd hit (login_iteration_ne_cont db uid expires v db2)

theorem dbC1_stock_nonneg : ∀ q, 0 ≤ stockOf dbC1 q := by
  intro q
  by_cases h : q = 1
  · subst h; decide
  · have hz : stockOf dbC1 q = 0 := by
      unfold stockOf dbC1
      simp [h]
    omega

theorem opsC1_amounts_ok : ∀ op ∈ opsC1, op_amounts_ok op := by
  intro op hop
  simp only [opsC1, List.mem_singleton] at hop
  subst hop
  show ∀ s ∈ [(⟨1, 2, none⟩ : CreateSaleSchema)], 0 < s.amount
  decide

/-- C1: for every sequence of committed Order Ledger operations whose line
items carry positive amounts, every product's stock stays non-negative and
`initial_stock - Σ(recorded sale amounts)` stays non-negative after the
whole sequence (hence after each committed prefix, since the statement
quantifies over all sequences); and any single operation that fails leaves
the store exactly as it was before the operation began. -/
theorem c1_stock_invariant :
    ∀ (db0 : DB) (ops : List LedgerOp),
      db0.sales = [] →
      (∀ q, 0 ≤ stockOf db0 q) →
      (∀ op ∈ ops, op_amounts_ok op) →
      ((∀ q, 0 ≤ stockOf (List.foldl apply_op db0 ops) q) ∧
        (∀ q, 0 ≤ stockOf db0 q - rowsAmount (List.foldl apply_op db0 ops).sales q)) ∧
      (∀ (db : DB) (op : LedgerOp) (e : ApiErr),
        op_result db op = .error e → apply_op db op = db) := by
  intro db0 ops h1 h2 h3
  have hok := foldl_preserves_stock_ok ops db0 (stock_ok_start h1 h2) h3
  refine ⟨⟨hok.1, ?_⟩, fun db op e h => op_rollback h⟩
  intro q
  have ha := hok.1 q
  have hb := hok.2.1 q
  omega

/-- Witness for C1 at a concrete store and operation sequence. -/
theorem c1_stock_invariant_witness :
    (dbC1.sales = [] ∧ (∀ q, 0 ≤ stockOf dbC1 q) ∧ (∀ op ∈ opsC1, op_amounts_ok op)) ∧
    ((∀ q, 0 ≤ stockOf (List.foldl apply_op dbC1 opsC1) q) ∧
      (∀ q, 0 ≤ stockOf dbC1 q - rowsAmount (List.foldl apply_op dbC1 opsC1).sales q)) ∧
    (∀ (db : DB) (op : LedgerOp) (e : ApiErr),
      op_result db op = .error e → apply_op db op = db) :=
  ⟨⟨rfl, dbC1_stock_nonneg, opsC1_amounts_ok⟩,
   c1_stock_invariant dbC1 opsC1 rfl dbC1_stock_nonneg opsC1_amounts_ok⟩

/-- C2: a failing create or update rolls the whole atomic unit back — the
committed state equals the state before the call; in particular a create
whose second line item names a nonexistent product fails with the product
NotFound and leaves the store (first item's stock included) unchanged,
creating no header and no sales. -/
theorem c2_atomic_rollback :
    (∀ (db : DB) (u : Nat) (b : CreateTransactionSchema) (n : Int) (e : ApiErr) (db' : DB),
        create_transaction db u b n = (.error e, db') → db' = db) ∧
    (∀ (db : DB) (tid : Nat) (body : UpdateTransaction) (force : Bool) (e : ApiErr) (db' : DB),
        update_transaction db tid body force = (.error e, db') → db' = db) ∧
    (∀ (db : DB) (u : Nat) (n : Int) (eid : Option Nat) (pm : PaymentMethod)
        (p1 : Nat) (a1 : Int) (p2 : Nat) (a2 : Int) (pr1 : Product),
        db.products p1 = some pr1 → db.products p2 = none → ¬ pr1.stock - a1 < 0 →
        create_transaction db u ⟨eid, pm, [⟨p1, a1, none⟩, ⟨p2, a2, none⟩]⟩ n =
          (.error .notFoundProduct, db)) := by
  refine ⟨?_, ?_, ?_⟩
  · intro db u b n e db' h
    unfold create_transaction at h
    exact run_request_rollback h
  · intro db tid body force e db' h
    unfold update_transaction at h
    exact run_request_rollback h
  · intro db u n eid pm p1 a1 p2 a2 pr1 h1 h2 hneg
    have hne : p2 ≠ p1 := by
      intro hc
      rw [hc, h1] at h2
      cases h2
    have hp2' : (set_product_stock db p1 pr1 (pr1.stock - a1)).products p2 = none := by
      show (if p2 = p1 then some { pr1 with stock := pr1.stock - a1 }
        else db.products p2) = none
      rw [if_neg hne]
      exact h2
    have hsell : sell_loop db [⟨p1, a1, none⟩, ⟨p2, a2, none⟩] = .error .notFoundProduct := by
      rw [sell_loop_cons_ok (decrement_stock_some h1 hneg)]
      exact sell_loop_cons_zero (decrement_stock_none a2 hp2')
    have hH : create_transaction_handler db u
        ⟨eid, pm, [⟨p1, a1, none⟩, ⟨p2, a2, none⟩]⟩ n = .error .notFoundProduct := by
      unfold create_transaction_handler
      simp only []
      rw [hsell]
    exact create_transaction_eq_err hH

/-- Witness for C2: a create whose second line item names missing product 2
fails and leaves the one-product store untouched. -/
theorem c2_atomic_rollback_witness :
    (dbC1.products 1 = some ⟨5, 2⟩ ∧ dbC1.products 2 = none ∧ ¬ (5 : Int) - 2 < 0) ∧
    create_transaction dbC1 9 ⟨none, .Cash, [⟨1, 2, none⟩, ⟨2, 1, none⟩]⟩ 0 =
      (.error .notFoundProduct, dbC1) :=
  ⟨⟨rfl, rfl, by decide⟩,
   c2_atomic_rollback.2.2 dbC1 9 0 none .Cash 1 2 2 1 ⟨5, 2⟩ rfl rfl (by decide)⟩

/-- C5: the token-insert retry loop abandons after its first iteration — a
colliding first value ends the login in an unhandled ProgrammingError
(persisting nothing) even though the next generated value is fresh, and in
general the loop's outcome never depends on any value beyond the first.
On a fresh first value the returned token is the persisted one. -/
theorem c5_token_retry_abandoned :
    (login_user dbC5 1 0 ["a", "b"]).1 = .error (.fault "ProgrammingError") ∧
    (login_user dbC5 1 0 ["a", "b"]).2 = dbC5 ∧
    (login_user dbC5 1 0 ["b"]).1 = .ok ⟨1, "b", 36000⟩ ∧
    (login_user dbC5 1 0 ["b"]).2.tokens = ⟨1, "b", 36000⟩ :: dbC5.tokens ∧
    (∀ (db : DB) (uid : Nat) (e : Int) (v : String) (vs vs' : List String),
      login_loop db uid e (v :: vs) = login_loop db uid e (v :: vs')) :=
  ⟨rfl, rfl, rfl, rfl, login_loop_head_only⟩

/-- C6: delete raises the transaction NotFound for an existing transaction
that owns zero sales rows (the rowcount of the sales delete is the only
existence check), while an existing transaction with sales is deleted with
its sales and header. -/
theorem c6_delete_zero_sales_notfound :
    dbC6.transactions 7 = some ⟨1, none, .Cash, 0⟩ ∧
    dbC6.sales = [] ∧
    delete_transaction dbC6 7 true = (.error .notFoundTransaction, dbC6) ∧
    (delete_transaction dbC6b 7 true).1 = .ok () ∧
    (delete_transaction dbC6b 7 true).2.sales = [] ∧
    (delete_transaction dbC6b 7 true).2.transactions 7 = none :=
  ⟨rfl, rfl, rfl, rfl, rfl, rfl⟩

/-- C9: the list query builder emits one full `where`-clause per supplied
filter, so a request with two filters produces SQL with two `where`
clauses, which a standard SQL engine rejects instead of filtering
conjunctively; a single filter produces a well-formed query. -/
theorem c9_multiple_filters_malformed :
    get_all_transactions_query qC9two =
      ["select transaction_id, \"user\", event, time, payment_method from get_all_transactions",
       "where time > %s", "where user_id = %s"] ∧
    where_clause_count (get_all_transactions_query qC9two) = 2 ∧
    sql_accepts (get_all_transactions_query qC9two) = false ∧
    where_clause_count (get_all_transactions_query qC9one) = 1 ∧
    sql_accepts (get_all_transactions_query qC9one) = true :=
  ⟨rfl, rfl, rfl, rfl, rfl⟩

/-- C10: an update request that omits `sales` (schema default `None`)
reaches `for sale in body.sales` and dies with a TypeError — an unhandled
fault rather than a typed failure — while the enclosing transaction's
rollback leaves the existing sales rows and header intact. -/
theorem c10_update_omitted_sales_fault :
    update_transaction dbC10 3 ⟨none, none, none⟩ false =
      (.error (.fault "TypeError"), dbC10) ∧
    dbC10.sales = [⟨3, 1, 2, 2⟩] ∧
    (dbC10.transactions 3).isSome = true :=
  ⟨rfl, rfl, rfl⟩

/-- C3 counterexample: in `dbC3` the only line item of `bodyC3` whose
amount exceeds its product's current stock names product 2 (7 > 5), yet the
create fails with a conflict naming product 1 — the running decrement on
product 1 fails first — so the conflict does not name "that exact product
id" of the over-stock line item.  No stock mutation is committed. -/
theorem c3_counterexample :
    create_transaction dbC3 1 bodyC3 0 = (.error (.conflict 1), dbC3) ∧
    (∀ s ∈ bodyC3.sales, stockOf dbC3 s.product_id < s.amount → s.product_id = 2) ∧
    (1 : Nat) ≠ 2 ∧
    conflictDetail 1 = "Not enough product 1" :=
  ⟨rfl, by decide, by decide, rfl⟩

/-- C3 (amended): a create in which every named product exists, all amounts
are non-negative and some line item requests more than its product's
current stock fails with a 409 conflict naming the product of the first
line item whose decrement would drive the running stock negative (which is
the over-stock item's product whenever that item is the first failing
decrement), and no stock mutation is committed — the store is returned
exactly as it was. -/
theorem c3_insufficient_stock_conflict :
    ∀ (db : DB) (u : Nat) (b : CreateTransactionSchema) (n : Int),
      (∀ s ∈ b.sales, product_exists db s.product_id = true) →
      (∀ s ∈ b.sales, 0 ≤ s.amount) →
      (∃ s ∈ b.sales, stockOf db s.product_id < s.amount) →
      ∃ p, sell_loop db b.sales = .error (.conflict p) ∧
        create_transaction db u b n = (.error (.conflict p), db) ∧
        conflictDetail p = "Not enough product " ++ toString p := by
  intro db u b n h1 h2 h3
  obtain ⟨p, hp⟩ := sell_loop_conflict b.sales db h1 h2 h3
  refine ⟨p, hp, ?_, rfl⟩
  have hH : create_transaction_handler db u b n = .error (.conflict p) := by
    unfold create_transaction_handler
    rw [hp]
  exact create_transaction_eq_err hH

/-- Witness for the amended C3: asking 7 units of product 1 (stock 5)
produces the conflict naming product 1 with the store unchanged. -/
theorem c3_insufficient_stock_conflict_witness :
    ((∀ s ∈ bodyC3w.sales, product_exists dbC1 s.product_id = true) ∧
      (∀ s ∈ bodyC3w.sales, 0 ≤ s.amount) ∧
      (∃ s ∈ bodyC3w.sales, stockOf dbC1 s.product_id < s.amount)) ∧
    (∃ p, sell_loop dbC1 bodyC3w.sales = .error (.conflict p) ∧
      create_transaction dbC1 1 bodyC3w 0 = (.error (.conflict p), dbC1) ∧
      conflictDetail p = "Not enough product " ++ toString p) :=
  ⟨⟨by decide, by decide, by decide⟩,
   c3_insufficient_stock_conflict dbC1 1 bodyC3w 0 (by decide) (by decide) (by decide)⟩

/-- C4 counterexample: a user holding exactly 5 stored, unexpired tokens
(now = 0, all expiries at 100) logs in a 6th time successfully — a token is
created and the user then holds 6 — contradicting the claimed
SessionLimitExceeded failure at 5 valid tokens. -/
theorem c4_counterexample :
    (dbC4.tokens.filter (fun t => t.user_id == 1)).length = 5 ∧
    (∀ t ∈ dbC4.tokens, (0 : Int) < t.expires) ∧
    (login_user dbC4 1 0 ["z"]).1 = .ok ⟨1, "z", 36000⟩ ∧
    (login_user dbC4 1 0 ["z"]).2.tokens.length = 6 :=
  ⟨rfl, by decide, rfl, rfl⟩

/-- C4 (amended): login fails with 403 (creating no token) exactly when the
user's stored token count — expired tokens included — exceeds 5; with at
most 5 stored tokens (and a non-colliding generated value) the login
succeeds and persists the token, so at issuance a user can hold up to 6
stored tokens.  Expiry does not reduce the count; only deletion does. -/
theorem c4_session_limit :
    ∀ (db : DB) (uid : Nat) (now : Int) (v : String) (vs : List String),
      (∀ t ∈ db.tokens, t.value ≠ v) →
      ((5 < (db.tokens.filter (fun t => t.user_id == uid)).length →
          login_user db uid now (v :: vs) = (.error .tokenLimit, db)) ∧
       ((db.tokens.filter (fun t => t.user_id == uid)).length ≤ 5 →
          login_user db uid now (v :: vs) =
            (.ok ⟨uid, v, now + 36000⟩,
              { db with tokens := ⟨uid, v, now + 36000⟩ :: db.tokens }) ∧
          ((⟨uid, v, now + 36000⟩ :: db.tokens).filter
              (fun t => t.user_id == uid)).length =
            (db.tokens.filter (fun t => t.user_id == uid)).length + 1 ∧
          (db.tokens.filter (fun t => t.user_id == uid)).length + 1 ≤ 6)) := by
  intro db uid now v vs hfresh
  constructor
  · intro hgt
    have hH : login_user_handler db uid now (v :: vs) = .error .tokenLimit := by
      unfold login_user_handler
      rw [if_pos hgt]
    exact login_user_eq_err hH
  · intro hle
    have hnot : ¬ ((db.tokens.filter (fun t => t.user_id == uid)).length > 5) := by
      omega
    have hany : db.tokens.any (fun t => t.value == v) = false := by
      rw [List.any_eq_false]
      intro t ht
      simp [hfresh t ht]
    have hH : login_user_handler db uid now (v :: vs) =
        .ok (⟨uid, v, now + 36000⟩,
          { db with tokens := ⟨uid, v, now + 36000⟩ :: db.tokens }) := by
      unfold login_user_handler
      rw [if_neg hnot]
      exact login_loop_fresh hany
    refine ⟨login_user_eq_ok hH, ?_, by omega⟩
    simp [List.filter_cons]

/-- Witness for the amended C4 at the 5-token store. -/
theorem c4_session_limit_witness :
    (∀ t ∈ dbC4.tokens, t.value ≠ "z") ∧
    ((5 < (dbC4.tokens.filter (fun t => t.user_id == 1)).length →
        login_user dbC4 1 0 ["z"] = (.error .tokenLimit, dbC4)) ∧
     ((dbC4.tokens.filter (fun t => t.user_id == 1)).length ≤ 5 →
        login_user dbC4 1 0 ["z"] =
          (.ok ⟨1, "z", 36000⟩, { dbC4 with tokens := ⟨1, "z", 36000⟩ :: dbC4.tokens }) ∧
        ((⟨1, "z", 36000⟩ :: dbC4.tokens).filter (fun t => t.user_id == 1)).length =
          (dbC4.tokens.filter (fun t => t.user_id == 1)).length + 1 ∧
        (dbC4.tokens.filter (fun t => t.user_id == 1)).length + 1 ≤ 6)) :=
  ⟨by decide, c4_session_limit dbC4 1 0 "z" [] (by decide)⟩

theorem create_endpoint_ok_inv {db db1 : DB} {u : Nat} {b : CreateTransactionSchema}
    {n : Int} {tid : Nat} (hcr : create_transaction db u b n = (.ok tid, db1)) :
    create_transaction_handler db u b n = .ok (tid, db1) := by
  cases hh : create_transaction_handler db u b n with
  | error e =>
      rw [create_transaction_eq_err hh] at hcr
      simp at hcr
  | ok p =>
      obtain ⟨t2, d2⟩ := p
      rw [create_transaction_eq_ok hh] at hcr
      simp at hcr
      obtain ⟨h1, h2⟩ := hcr
      subst h1
      subst h2
      rfl

/-- C7: a committed create followed by delete with `return_products=true`
restores every product's stock to exactly its pre-create value, removing
the transaction's sales and header; delete with `return_products=false`
removes the sales and header but leaves the post-create stocks in place. -/
theorem c7_delete_return_symmetry :
    ∀ (db db1 : DB) (u : Nat) (b : CreateTransactionSchema) (n : Int) (tid : Nat),
      (∀ s ∈ b.sales, 0 ≤ s.amount) →
      b.sales ≠ [] →
      (∀ q, 0 ≤ stockOf db q) →
      (∀ r ∈ db.sales, r.transaction_id ≠ db.next_transaction_id) →
      create_transaction db u b n = (.ok tid, db1) →
      (∃ dbF, delete_transaction db1 tid true = (.ok (), dbF) ∧
        (∀ q, stockOf dbF q = stockOf db q) ∧
        dbF.transactions tid = none ∧ dbF.sales = db.sales) ∧
      (∃ dbG, delete_transaction db1 tid false = (.ok (), dbG) ∧
        (∀ q, stockOf dbG q = stockOf db1 q) ∧
        dbG.transactions tid = none ∧ dbG.sales = db.sales) := by
  intro db db1 u b n tid hpos hne hstk hfresh hcr
  have hH := create_endpoint_ok_inv hcr
  obtain ⟨dbA, hsell, hfk, htid, hdb1⟩ := create_handler_ok_inv hH
  obtain ⟨s1, s2, s3, s4, s5, sdom, sstk, snn, sex⟩ := sell_loop_ok_spec b.sales db dbA hsell
  obtain ⟨rows, i1, i2, i3, i4, i5, i6, ilen, itid2, iamt, imap⟩ :=
    insert_sales_spec b.sales (header_row_insert dbA u b.event_id b.payment_method n).2 tid
  have hXsales : (header_row_insert dbA u b.event_id b.payment_method n).2.sales
      = db.sales := s1
  have htid' : tid = db.next_transaction_id := by rw [htid, s5]
  have hdb1sales : db1.sales = db.sales ++ rows := by
    rw [hdb1, i1, hXsales]
  have hprod1 : db1.products = dbA.products := by
    rw [hdb1, i2]
    rfl
  have hold_ne : ∀ r ∈ db.sales, (r.transaction_id == tid) = false := by
    intro r hr
    rw [htid']
    simp [hfresh r hr]
  have hrows_eq : ∀ r ∈ rows, (r.transaction_id == tid) = true := by
    intro r hr
    simp [itid2 r hr]
  have htx : tx_sales db1 tid = rows := by
    unfold tx_sales
    rw [hdb1sales, List.filter_append,
      List.filter_eq_nil_iff.mpr (by intro a ha; simp [hold_ne a ha]),
      List.filter_eq_self.mpr hrows_eq]
    simp
  have hwo : (without_tx_sales db1 tid).sales = db.sales := by
    unfold without_tx_sales
    show (db1.sales.filter (fun r => r.transaction_id != tid)) = db.sales
    rw [hdb1sales, List.filter_append,
      List.filter_eq_self.mpr (by
        intro a ha
        simp only [bne_iff_ne, ne_eq]
        rw [htid']
        simp [hfresh a ha]),
      List.filter_eq_nil_iff.mpr (by
        intro a ha
        simp [itid2 a ha])]
    simp
  have hlen : (tx_sales db1 tid).length ≠ 0 := by
    rw [htx, ilen]
    intro hc
    exact hne (List.eq_nil_of_length_eq_zero hc)
  have hstk1 : ∀ q, stockOf db1 q = stockOf db q - reqAmount b.sales q := by
    intro q
    rw [stockOf_eq_of_products hprod1 q, sstk q]
  have hnn1 : ∀ q, 0 ≤ stockOf db1 q := by
    intro q
    rw [stockOf_eq_of_products hprod1 q]
    exact snn q (hstk q)
  have hdom1 : ∀ q, product_exists db1 q = product_exists db q := by
    intro q
    rw [product_exists_eq_of_products hprod1 q, sdom q]
  have hrowpos : ∀ r ∈ rows, 0 ≤ r.amount := by
    intro r hr
    obtain ⟨s, hs, hpid, hamt⟩ := imap r hr
    rw [hamt]
    exact hpos s hs
  have hrowex : ∀ r ∈ rows,
      product_exists (without_tx_sales db1 tid) r.product_id = true := by
    intro r hr
    obtain ⟨s, hs, hpid, hamt⟩ := imap r hr
    have he : product_exists (without_tx_sales db1 tid) r.product_id
        = product_exists db1 r.product_id := rfl
    rw [he, hdom1, hpid]
    exact sex s hs
  have hwostk : ∀ q, 0 ≤ stockOf (without_tx_sales db1 tid) q := by
    intro q
    have he : stockOf (without_tx_sales db1 tid) q = stockOf db1 q := rfl
    rw [he]
    exact hnn1 q
  obtain ⟨db2, hret⟩ := return_loop_total (tx_sales db1 tid) (without_tx_sales db1 tid)
    hwostk (by rw [htx]; exact hrowpos)
  obtain ⟨r1, r2, r3, r4, r5, rdom, rstk⟩ :=
    return_loop_ok_spec (tx_sales db1 tid) (without_tx_sales db1 tid) db2 hret
  have hretex : ∀ r ∈ tx_sales db1 tid,
      product_exists (without_tx_sales db1 tid) r.product_id = true := by
    rw [htx]
    exact hrowex
  have hstk2 : ∀ q, stockOf db2 q = stockOf db q := by
    intro q
    rw [rstk hretex q]
    have hx : stockOf (without_tx_sales db1 tid) q = stockOf db1 q := rfl
    rw [hx, htx, iamt q, hstk1 q]
    omega
  constructor
  · refine ⟨drop_tx_header db2 tid,
      delete_transaction_eq_ok (delete_handler_ok_return hlen hret), ?_, ?_, ?_⟩
    · intro q
      have he : stockOf (drop_tx_header db2 tid) q = stockOf db2 q := rfl
      rw [he]
      exact hstk2 q
    · show (if tid = tid then none else db2.transactions tid) = none
      rw [if_pos rfl]
    · show db2.sales = db.sales
      rw [r1, hwo]
  · refine ⟨drop_tx_header (without_tx_sales db1 tid) tid,
      delete_transaction_eq_ok (delete_handler_ok_noreturn hlen), ?_, ?_, ?_⟩
    · intro q
      rfl
    · show (if tid = tid then none else (without_tx_sales db1 tid).transactions tid) = none
      rw [if_pos rfl]
    · exact hwo

/-- C8: for a transaction whose sales consume 3 units of product P, the
replace-all update to `[{P, 3}]` with `force=false` commits with P's stock
unchanged (the removed sales' stock is returned before the new reservation
is taken), while the same call with `force=true` (possible whenever P has
at least 3 in stock) skips the restoration and commits with P's stock
reduced by 3 relative to the force=false outcome. -/
theorem c8_update_force_semantics :
    ∀ (db : DB) (t P : Nat) (row : TxRow),
      db.transactions t = some row →
      (∀ r ∈ tx_sales db t, r.product_id = P ∧ 0 ≤ r.amount) →
      rowsAmount (tx_sales db t) P = 3 →
      (∀ q, 0 ≤ stockOf db q) →
      product_exists db P = true →
      ((∃ dbA rA,
          update_transaction db t ⟨none, none, some [⟨P, 3, none⟩]⟩ false = (.ok rA, dbA) ∧
          stockOf dbA P = stockOf db P) ∧
       (3 ≤ stockOf db P →
        ∃ dbB rB,
          update_transaction db t ⟨none, none, some [⟨P, 3, none⟩]⟩ true = (.ok rB, dbB) ∧
          stockOf dbB P = stockOf db P - 3)) := by
  intro db t P row hrow hrows hamt3 hstk hPex
  constructor
  · -- force = false: return the old reservation, then take the new one
    have htpos : ∀ r ∈ tx_sales (update_header db t row ⟨none, none, some [⟨P, 3, none⟩]⟩) t,
        0 ≤ r.amount := by
      rw [tx_sales_update_header]
      intro r hr
      exact (hrows r hr).2
    have hwstk : ∀ q,
        0 ≤ stockOf (without_tx_sales (update_header db t row ⟨none, none, some [⟨P, 3, none⟩]⟩) t) q := by
      intro q
      exact hstk q
    obtain ⟨dbR, hret⟩ := return_loop_total
      (tx_sales (update_header db t row ⟨none, none, some [⟨P, 3, none⟩]⟩) t)
      (without_tx_sales (update_header db t row ⟨none, none, some [⟨P, 3, none⟩]⟩) t)
      hwstk htpos
    obtain ⟨r1, r2, r3, r4, r5, rdom, rstk⟩ := return_loop_ok_spec _ _ dbR hret
    have hex : ∀ r ∈ tx_sales (update_header db t row ⟨none, none, some [⟨P, 3, none⟩]⟩) t,
        product_exists (without_tx_sales (update_header db t row ⟨none, none, some [⟨P, 3, none⟩]⟩) t)
          r.product_id = true := by
      rw [tx_sales_update_header]
      intro r hr
      have hp := (hrows r hr).1
      show product_exists (without_tx_sales (update_header db t row ⟨none, none, some [⟨P, 3, none⟩]⟩) t)
          r.product_id = true
      have he : product_exists (without_tx_sales (update_header db t row ⟨none, none, some [⟨P, 3, none⟩]⟩) t)
          r.product_id = product_exists db r.product_id := rfl
      rw [he, hp]
      exact hPex
    have hdbRstk : stockOf dbR P = stockOf db P + 3 := by
      rw [rstk hex P]
      have he : stockOf (without_tx_sales (update_header db t row ⟨none, none, some [⟨P, 3, none⟩]⟩) t) P
          = stockOf db P := rfl
      rw [he, tx_sales_update_header, hamt3]
    have hdbRex : product_exists dbR P = true := by
      rw [rdom P]
      exact hPex
    unfold product_exists at hdbRex
    cases hpr : dbR.products P with
    | none => rw [hpr] at hdbRex; simp at hdbRex
    | some pr =>
        have hprstock : pr.stock = stockOf db P + 3 := by
          have hv : stockOf dbR P = pr.stock := by
            unfold stockOf
            rw [hpr]
          omega
        have hdec : ¬ pr.stock - 3 < 0 := by
          have := hstk P
          omega
        have hsell : sell_loop dbR [⟨P, 3, none⟩]
            = .ok (set_product_stock dbR P pr (pr.stock - 3)) := by
          rw [sell_loop_cons_ok (decrement_stock_some hpr hdec)]
          rfl
        have hH : update_transaction_handler db t ⟨none, none, some [⟨P, 3, none⟩]⟩ false
            = .ok (t, insert_sales (set_product_stock dbR P pr (pr.stock - 3)) t [⟨P, 3, none⟩]) := by
          rw [update_handler_some hrow,
            if_pos (show fk_ok db (⟨none, none, some [⟨P, 3, none⟩]⟩ : UpdateTransaction).event_id
              = true from rfl),
            if_neg Bool.false_ne_true, hret]
          simp only []
          rw [hsell]
        obtain ⟨rows2, i1, i2, i3, i4, i5, i6, ilen, itid2, iamt, imap⟩ :=
          insert_sales_spec [⟨P, 3, none⟩] (set_product_stock dbR P pr (pr.stock - 3)) t
        refine ⟨_, t, update_transaction_eq_ok hH, ?_⟩
        rw [stockOf_eq_of_products i2 P, set_product_stock_stockOf, if_pos rfl]
        omega
  · -- force = true: the old reservation's stock is not returned
    intro h3
    unfold product_exists at hPex
    cases hpr0 : db.products P with
    | none => rw [hpr0] at hPex; simp at hPex
    | some pr0 =>
        have hpr0W : (without_tx_sales (update_header db t row ⟨none, none, some [⟨P, 3, none⟩]⟩) t).products P
            = some pr0 := hpr0
        have hpr0stock : pr0.stock = stockOf db P := by
          unfold stockOf
          rw [hpr0]
        have hdec0 : ¬ pr0.stock - 3 < 0 := by omega
        have hsellF : sell_loop (without_tx_sales (update_header db t row ⟨none, none, some [⟨P, 3, none⟩]⟩) t)
            [⟨P, 3, none⟩]
            = .ok (set_product_stock
                (without_tx_sales (update_header db t row ⟨none, none, some [⟨P, 3, none⟩]⟩) t)
                P pr0 (pr0.stock - 3)) := by
          rw [sell_loop_cons_ok (decrement_stock_some hpr0W hdec0)]
          rfl
        have hHF : update_transaction_handler db t ⟨none, none, some [⟨P, 3, none⟩]⟩ true
            = .ok (t, insert_sales
                (set_product_stock
                  (without_tx_sales (update_header db t row ⟨none, none, some [⟨P, 3, none⟩]⟩) t)
                  P pr0 (pr0.stock - 3)) t [⟨P, 3, none⟩]) := by
          rw [update_handler_some hrow,
            if_pos (show fk_ok db (⟨none, none, some [⟨P, 3, none⟩]⟩ : UpdateTransaction).event_id
              = true from rfl),
            if_pos rfl]
          simp only []
          rw [hsellF]
        obtain ⟨rows2, i1, i2, i3, i4, i5, i6, ilen, itid2, iamt, imap⟩ :=
          insert_sales_spec [⟨P, 3, none⟩]
            (set_product_stock
              (without_tx_sales (update_header db t row ⟨none, none, some [⟨P, 3, none⟩]⟩) t)
              P pr0 (pr0.stock - 3)) t
        refine ⟨_, t, update_transaction_eq_ok hHF, ?_⟩
        rw [stockOf_eq_of_products i2 P, set_product_stock_stockOf, if_pos rfl]
        omega

theorem dbC8_stock_nonneg : ∀ q, 0 ≤ stockOf dbC8 q := by
  intro q
  by_cases h : q = 1
  · subst h; decide
  · have hz : stockOf dbC8 q = 0 := by
      unfold stockOf dbC8
      simp [h]
    omega

/-- Witness for C7: creating a 2-unit sale in the one-product store and
deleting it with and without stock restoration. -/
theorem c7_delete_return_symmetry_witness :
    ((∀ s ∈ bodyC7.sales, 0 ≤ s.amount) ∧ bodyC7.sales ≠ [] ∧
      (∀ q, 0 ≤ stockOf dbC1 q) ∧
      (∀ r ∈ dbC1.sales, r.transaction_id ≠ dbC1.next_transaction_id) ∧
      create_transaction dbC1 7 bodyC7 0 = (.ok 1, db1C7)) ∧
    ((∃ dbF, delete_transaction db1C7 1 true = (.ok (), dbF) ∧
        (∀ q, stockOf dbF q = stockOf dbC1 q) ∧
        dbF.transactions 1 = none ∧ dbF.sales = dbC1.sales) ∧
      (∃ dbG, delete_transaction db1C7 1 false = (.ok (), dbG) ∧
        (∀ q, stockOf dbG q = stockOf db1C7 q) ∧
        dbG.transactions 1 = none ∧ dbG.sales = dbC1.sales)) :=
  ⟨⟨by decide, by decide, dbC1_stock_nonneg, by decide, rfl⟩,
   c7_delete_return_symmetry dbC1 db1C7 7 bodyC7 0 1 (by decide) (by decide)
     dbC1_stock_nonneg (by decide) rfl⟩

/-- Witness for C8: product 1 has stock 10 and transaction 3 consumes 3
units; the non-force update leaves stock 10, the force update leaves 7. -/
theorem c8_update_force_semantics_witness :
    (dbC8.transactions 3 = some ⟨2, none, .BLIK, 0⟩ ∧
      (∀ r ∈ tx_sales dbC8 3, r.product_id = 1 ∧ 0 ≤ r.amount) ∧
      rowsAmount (tx_sales dbC8 3) 1 = 3 ∧
      (∀ q, 0 ≤ stockOf dbC8 q) ∧ product_exists dbC8 1 = true ∧
      3 ≤ stockOf dbC8 1) ∧
    ((∃ dbA rA,
        update_transaction dbC8 3 ⟨none, none, some [⟨1, 3, none⟩]⟩ false = (.ok rA, dbA) ∧
        stockOf dbA 1 = stockOf dbC8 1) ∧
     (3 ≤ stockOf dbC8 1 →
      ∃ dbB rB,
        update_transaction dbC8 3 ⟨none, none, some [⟨1, 3, none⟩]⟩ true = (.ok rB, dbB) ∧
        stockOf dbB 1 = stockOf dbC8 1 - 3)) :=
  ⟨⟨rfl, by decide, by decide, dbC8_stock_nonneg, by decide, by decide⟩,
   c8_update_force_semantics dbC8 3 1 ⟨2, none, .BLIK, 0⟩ rfl (by decide) (by decide)
     dbC8_stock_nonneg (by decide)⟩

end Prodhub
